import Mathlib

/-!
RebootForums: sessions and reactions.

A shallow embedding of the storage-facing core of the forum
(`Handlers/db.go`, `Handlers/sessions.go`, `Handlers/posthandler.go`,
`Handlers/auth.go`).

Conventions of the embedding.

* A table is the list of its rows, in insertion order.  The columns `id`
  (AUTOINCREMENT) of `likes` and `sessions`, `likes.created_at` and the
  timestamps of `posts` and `comments` are assigned by the engine and read by
  none of the modelled queries; they are left out of the rows.
* A loop is run with a bound on its iterations and gives `none` when the bound
  is reached; a theorem shows that the bound is not reached.
* `QueryRow(..).Scan(..)` yields the first row of the result set, or
  `sql.ErrNoRows` when the set is empty.
* A nullable column is an `Option`; SQL `col = ?` is false on NULL.
* Go `int` values that are identifiers are `Int`; aggregate counts are `Nat`
  (they are bounded by the number of rows).
* `time.Time` is an `Int` (nanoseconds), and the clock reading `now` is an
  argument; all clock reads of one call see the same instant.  A row keeps the
  instant; the store holds for it the text that `go-sqlite3` writes
  (`sqliteTimestamp`), and a comparison of two times in SQL compares these
  texts (`textLt`).
* Every function that talks to the store takes a fault oracle: `fault i` says
  that the `i`-th storage call in the text of the function fails with a storage
  error.  A function that writes to the global `DB` returns the table after the
  call next to its Go result.  A transaction that is not committed leaves the
  table as it was (`defer tx.Rollback()`).
-/

namespace RebootForums

/-! ## Errors and storage faults -/

/-- Go `error` values that the modelled functions can produce. -/
inductive Err where
  /-- the store could not run the statement -/
  | storage
  /-- the value `sql.ErrNoRows` -/
  | noRows
  /-- a `Scan` could not convert a column value into its destination -/
  | scan
  /-- a UNIQUE constraint rejected the write -/
  | uniqueViolation
deriving DecidableEq, Repr

/-- Fault oracle: `fault i = true` makes the `i`-th storage call fail. -/
abbrev Faults := Nat → Bool

/-- The healthy store: no call fails. -/
def noFault : Faults := fun _ => false

/-! ## The likes table -/

/-- One row of `likes`: `user_id INTEGER NOT NULL, post_id INTEGER,
comment_id INTEGER, is_like BOOLEAN NOT NULL`. -/
structure LikeRow where
  user_id : Int
  post_id : Option Int
  comment_id : Option Int
  is_like : Bool
deriving DecidableEq, Repr

/-- Equality of two values of a nullable key column as a UNIQUE constraint sees
it: SQLite treats NULL as distinct from every value, NULL included. -/
def uniqueColEq : Option Int → Option Int → Bool
  | some x, some y => decide (x = y)
  | _, _ => false

/-- Two rows collide under `UNIQUE(user_id, post_id, comment_id)`. -/
def uniqueConflict (a b : LikeRow) : Bool :=
  decide (a.user_id = b.user_id) && uniqueColEq a.post_id b.post_id
    && uniqueColEq a.comment_id b.comment_id

/-- Runs `INSERT INTO likes (user_id, post_id, comment_id, is_like) VALUES (..)`
against the schema of `CreateTables`. -/
def insertLike (likes : List LikeRow) (row : LikeRow) : Except Err (List LikeRow) :=
  if likes.any (uniqueConflict row) then .error .uniqueViolation else .ok (likes ++ [row])

/-- The WHERE clause shared by the four statements of `UpsertLike`:
`user_id = ? AND post_id = ? AND comment_id IS NULL` for a post,
`user_id = ? AND comment_id = ? AND post_id IS NULL` for a comment. -/
def likeKey (isPost : Bool) (userID targetID : Int) (r : LikeRow) : Bool :=
  if isPost then
    decide (r.user_id = userID) && decide (r.post_id = some targetID)
      && decide (r.comment_id = none)
  else
    decide (r.user_id = userID) && decide (r.comment_id = some targetID)
      && decide (r.post_id = none)

/-- Go `sql.NullBool`. -/
structure NullBool where
  Valid : Bool
  Bool : Bool
deriving DecidableEq, Repr

/-- The row that `insertQuery` writes. -/
def newLikeRow (isPost : Bool) (userID targetID : Int) (isLike : Bool) : LikeRow :=
  if isPost then ⟨userID, some targetID, none, isLike⟩
  else ⟨userID, none, some targetID, isLike⟩

/-- Runs `tx.QueryRow(selectQuery, userID, targetID).Scan(&existingLike)`. The
column `is_like` is NOT NULL, so a scanned value is always valid. -/
def selectIsLike (likes : List LikeRow) (isPost : Bool) (userID targetID : Int) :
    Except Err NullBool :=
  match likes.find? (likeKey isPost userID targetID) with
  | none => .error .noRows
  | some r => .ok ⟨true, r.is_like⟩

/-- Runs `tx.Exec(deleteQuery, userID, targetID)`. -/
def deleteLike (likes : List LikeRow) (isPost : Bool) (userID targetID : Int) : List LikeRow :=
  likes.filter (fun r => !likeKey isPost userID targetID r)

/-- Runs `tx.Exec(updateQuery, isLike, userID, targetID)`. -/
def updateLike (likes : List LikeRow) (isPost : Bool) (userID targetID : Int) (isLike : Bool) :
    List LikeRow :=
  likes.map (fun r => if likeKey isPost userID targetID r then { r with is_like := isLike } else r)

/-- Function `UpsertLike` of `db.go`. Storage calls: 0 `DB.Begin`, 1 the select,
2 the insert / delete / update, 3 `tx.Commit`. -/
def UpsertLike (fault : Faults) (likes : List LikeRow) (userID targetID : Int)
    (isLike isPost : Bool) : Option Err × List LikeRow :=
  if fault 0 then (some .storage, likes) else
  let sel : Except Err NullBool :=
    if fault 1 then .error .storage else selectIsLike likes isPost userID targetID
  let written : Except Err (List LikeRow) :=
    match sel with
    | .error .noRows =>
      if fault 2 then .error .storage
      else insertLike likes (newLikeRow isPost userID targetID isLike)
    | .error e => .error e
    | .ok existingLike =>
      if existingLike.Valid then
        if existingLike.Bool = isLike then
          if fault 2 then .error .storage else .ok (deleteLike likes isPost userID targetID)
        else
          if fault 2 then .error .storage
          else .ok (updateLike likes isPost userID targetID isLike)
      else .ok likes
  match written with
  | .error e => (some e, likes)
  | .ok tx => if fault 3 then (some .storage, likes) else (none, tx)

/-- The WHERE clause of `GetLikeCounts`: `post_id = ?` or `comment_id = ?`. -/
def targetMatch (isPost : Bool) (targetID : Int) (r : LikeRow) : Bool :=
  if isPost then decide (r.post_id = some targetID) else decide (r.comment_id = some targetID)

/-- Function `GetLikeCounts` of `db.go`: one SELECT of
`COALESCE(SUM(CASE WHEN is_like = 1 THEN 1 ELSE 0 END), 0)` and the same for
`is_like = 0`. On a failed query the named results keep their zero values. The
result is the triple `(likes, dislikes, err)` and, next to it, the table after
the call; the function runs no statement but the SELECT. -/
def GetLikeCounts (fault : Faults) (likes : List LikeRow) (targetID : Int) (isPost : Bool) :
    (Nat × Nat × Option Err) × List LikeRow :=
  if fault 0 then ((0, 0, some .storage), likes) else
  let rows := likes.filter (targetMatch isPost targetID)
  (((rows.map (fun r => if r.is_like = true then 1 else 0)).sum,
    (rows.map (fun r => if r.is_like = false then 1 else 0)).sum, none), likes)

/-! ## Text of numbers and of times -/

/-- Decimal digits of `n`, most significant first; `fuel` bounds their number. -/
def decimalDigits : Nat → Nat → List Char
  | 0, _ => []
  | fuel + 1, n =>
    if n < 10 then [Char.ofNat (48 + n)]
    else decimalDigits fuel (n / 10) ++ [Char.ofNat (48 + n % 10)]

/-- The number that a list of decimal digits writes. -/
def digitsValue (cs : List Char) : Nat :=
  cs.foldl (fun a c => 10 * a + (c.toNat - 48)) 0

/-- The text of the verb `%d` of `fmt.Sprintf` for a non-negative integer. -/
def formatDecimal (n : Nat) : String := String.mk (decimalDigits (n + 1) n)

/-- Decimal text of `n`, padded with zeros on the left to `width` characters. -/
def zeroPad (width n : Nat) : String :=
  String.mk (List.replicate (width - (formatDecimal n).length) '0') ++ formatDecimal n

/-- Year, month and day of the civil calendar for a day count from 1 January
1970 (the proleptic Gregorian calendar that Go `time` uses). -/
def civilDate (days : Int) : Int × Int × Int :=
  let z := days + 719468
  let era := z / 146097
  let doe := z - era * 146097
  let yoe := (doe - doe / 1460 + doe / 36524 - doe / 146096) / 365
  let doy := doe - (365 * yoe + yoe / 4 - yoe / 100)
  let mp := (5 * doy + 2) / 153
  let d := doy - (153 * mp + 2) / 5 + 1
  let m := if mp < 10 then mp + 3 else mp - 9
  let y := yoe + era * 400
  (if m ≤ 2 then y + 1 else y, m, d)

/-- The text that `go-sqlite3` binds and stores for a `time.Time`: the layout
`"2006-01-02 15:04:05.999999999-07:00"`, that is the wall clock of the zone of
the value, the fraction of the second without its trailing zeros, and the zone
offset in whole minutes (Go divides the offset by 60, rounding to zero). `t` is the instant in nanoseconds since 1 January 1970 UTC and `offset`
the offset of the zone at that instant, in seconds east of UTC. -/
def sqliteTimestamp (offset : Int) (t : Int) : String :=
  let wall := t + offset * 1000000000
  let secs := wall / 1000000000
  let nanos := (wall % 1000000000).toNat
  let date := civilDate (secs / 86400)
  let sod := (secs % 86400).toNat
  let year := if date.1 < 0 then "-" ++ zeroPad 4 (-date.1).toNat else zeroPad 4 date.1.toNat
  let frac :=
    if nanos = 0 then ""
    else "." ++ String.mk (((zeroPad 9 nanos).toList.reverse.dropWhile
      (fun c => decide (c = '0'))).reverse)
  let zoneMinutes := offset.tdiv 60
  let zoneText :=
    (if zoneMinutes < 0 then "-" else "+") ++ zeroPad 2 (zoneMinutes.natAbs / 60) ++ ":"
      ++ zeroPad 2 (zoneMinutes.natAbs % 60)
  year ++ "-" ++ zeroPad 2 date.2.1.toNat ++ "-" ++ zeroPad 2 date.2.2.toNat ++ " "
    ++ zeroPad 2 (sod / 3600) ++ ":" ++ zeroPad 2 (sod % 3600 / 60) ++ ":"
    ++ zeroPad 2 (sod % 60) ++ frac ++ zoneText

/-- Order of two texts under the collation BINARY of SQLite: the first differing
character decides, and a text comes before every text it is a proper start of.
(On UTF-8 the order of the bytes is the order of the code points.) -/
def textLt : List Char → List Char → Bool
  | [], [] => false
  | [], _ :: _ => true
  | _ :: _, [] => false
  | a :: as, b :: bs =>
    if a.toNat < b.toNat then true
    else if b.toNat < a.toNat then false
    else textLt as bs

/-- The offset of Central European time around the end of summer time in 2024:
two hours until 27 October 2024, 01:00 UTC, one hour from then on. -/
def centralEurope2024 (t : Int) : Int :=
  if t < 1729990800000000000 then 7200 else 3600

/-! ## Users and sessions -/

/-- One row of `users`. -/
structure UserRow where
  id : Int
  username : String
  email : String
  password : String
deriving DecidableEq, Repr

/-- Go `User` of `models.go`. -/
structure User where
  ID : Int
  Username : String
  Email : String
  Password : String
deriving DecidableEq, Repr

/-- One row of `sessions`: `user_id INTEGER, token TEXT UNIQUE NOT NULL,
expiry DATETIME NOT NULL, is_guest BOOLEAN NOT NULL, last_activity DATETIME NOT NULL,
created_at DATETIME NOT NULL`. -/
structure SessionRow where
  user_id : Option Int
  token : String
  expiry : Int
  is_guest : Bool
  last_activity : Int
  created_at : Int
deriving DecidableEq, Repr

/-- Go `time.Hour`, in nanoseconds. -/
def Hour : Int := 3600 * 1000000000

/-- Go `time.Second`, in nanoseconds. -/
def Second : Int := 1000000000

/-- The part of an `*http.Request` that the modelled handlers read: the method,
the value of the cookie `session_token` (absent: `r.Cookie` returns
`http.ErrNoCookie`), and `r.FormValue`. -/
structure Request where
  Method : String
  session_token : Option String
  FormValue : String → String

/-- Function `UpsertSession` of `sessions.go`. A nil `userID` is `none` and is stored as
NULL. Storage calls: 0 `DB.Begin`, 1 the DELETE, 2 the INSERT .. ON CONFLICT,
3 `tx.Commit`. -/
def UpsertSession (fault : Faults) (now : Int) (sessions : List SessionRow)
    (userID : Option Int) (token : String) (expiry : Int) (isGuest : Bool) :
    Option Err × List SessionRow :=
  if fault 0 then (some .storage, sessions) else
  let deleted : Except Err (List SessionRow) :=
    match userID with
    | some uid =>
      if !isGuest then
        if fault 1 then .error .storage
        else .ok (sessions.filter (fun s => !decide (s.user_id = some uid)))
      else .ok sessions
    | none => .ok sessions
  match deleted with
  | .error e => (some e, sessions)
  | .ok tx =>
    if fault 2 then (some .storage, sessions) else
    let tx2 : List SessionRow :=
      if tx.any (fun s => decide (s.token = token)) then
        tx.map (fun s =>
          if s.token = token then
            { s with user_id := userID, expiry := expiry, is_guest := isGuest,
                     last_activity := now }
          else s)
      else tx ++ [⟨userID, token, expiry, isGuest, now, now⟩]
    if fault 3 then (some .storage, sessions) else (none, tx2)

/-- The table on which `UpsertSession` runs its INSERT: the sessions of the user
are deleted first when `userID != nil && !isGuest`. -/
def sessionsAfterDelete (sessions : List SessionRow) (userID : Option Int) (isGuest : Bool) :
    List SessionRow :=
  match userID with
  | some uid =>
    if !isGuest then sessions.filter (fun s => !decide (s.user_id = some uid)) else sessions
  | none => sessions

/-- The statement `INSERT INTO sessions (..) VALUES (..) ON CONFLICT(token) DO UPDATE
SET user_id = ?, expiry = ?, is_guest = ?, last_activity = ?` of `UpsertSession`,
run on the table `tx`. -/
def upsertSessionRow (now : Int) (tx : List SessionRow) (userID : Option Int)
    (token : String) (expiry : Int) (isGuest : Bool) : List SessionRow :=
  if tx.any (fun s => decide (s.token = token)) then
    tx.map (fun s =>
      if s.token = token then
        { s with user_id := userID, expiry := expiry, is_guest := isGuest,
                 last_activity := now }
      else s)
  else tx ++ [⟨userID, token, expiry, isGuest, now, now⟩]

/-- Function `UpdateSessionActivity` of `sessions.go` (one storage call). -/
def UpdateSessionActivity (fault : Faults) (now : Int) (sessions : List SessionRow)
    (token : String) : Option Err × List SessionRow :=
  if fault 0 then (some .storage, sessions) else
  (none, sessions.map (fun s => if s.token = token then { s with last_activity := now } else s))

/-- Function `CleanupSessions` of `sessions.go`: `DELETE FROM sessions WHERE expiry < ?`
with the current time; an error is only logged. Both operands of the comparison
are the texts that `go-sqlite3` wrote for the two `time.Time` values, and SQLite
compares them byte by byte; `zone` gives the offset of the server's zone at an
instant. -/
def CleanupSessions (fault : Faults) (zone : Int → Int) (now : Int)
    (sessions : List SessionRow) : List SessionRow :=
  if fault 0 then sessions
  else sessions.filter (fun s =>
    !textLt (sqliteTimestamp (zone s.expiry) s.expiry).toList
      (sqliteTimestamp (zone now) now).toList)

/-- Function `DeleteSession` of `sessions.go`. -/
def DeleteSession (fault : Faults) (sessions : List SessionRow) (token : String) :
    Option Err × List SessionRow :=
  if fault 0 then (some .storage, sessions) else
  (none, sessions.filter (fun s => !decide (s.token = token)))

/-- Function `GetUserByID` of `sessions.go`: the scan fills `ID`, `Username` and `Email`;
`Password` keeps its zero value. -/
def GetUserByID (fault : Faults) (users : List UserRow) (id : Int) : Except Err User :=
  if fault 0 then .error .storage else
  match users.find? (fun u => decide (u.id = id)) with
  | none => .error .noRows
  | some u => .ok ⟨u.id, u.username, u.email, ""⟩

/-- Runs `DB.QueryRow("SELECT user_id, is_guest FROM sessions WHERE token = ?")
.Scan(&userID, &isGuest)` with `userID int`, `isGuest bool`: `database/sql`
refuses to convert a NULL `user_id` into an `int` and returns a scan error. -/
def scanSession (sessions : List SessionRow) (sessionToken : String) :
    Except Err (Int × Bool) :=
  match sessions.find? (fun s => decide (s.token = sessionToken)) with
  | none => .error .noRows
  | some s =>
    match s.user_id with
    | none => .error .scan
    | some userID => .ok (userID, s.is_guest)

/-- Function `GetUserFromSession` of `sessions.go`; the result is the pair
`(*User, error)`. Storage calls: 0 the session query, 1 the user query. -/
def GetUserFromSession (fault : Faults) (sessions : List SessionRow) (users : List UserRow)
    (r : Request) : Option User × Option Err :=
  match r.session_token with
  | none => (none, none)
  | some sessionToken =>
    match (if fault 0 then Except.error Err.storage else scanSession sessions sessionToken) with
    | .error .noRows => (none, none)
    | .error e => (none, some e)
    | .ok (userID, isGuest) =>
      if isGuest then (none, none) else
      match GetUserByID (fun i => fault (i + 1)) users userID with
      | .error .noRows => (none, none)
      | .error e => (none, some e)
      | .ok user => (some user, none)

/-- Function `generateSessionToken` of `auth.go`: the string form of a fresh UUID, and
never an error. The UUID drawn is an argument. -/
def generateSessionToken (uuid : String) : String × Option Err := (uuid, none)

/-- A cookie set on the response: `Name`, `Value`, `Expires`. -/
structure Cookie where
  Name : String
  Value : String
  Expires : Int
deriving DecidableEq, Repr

/-- What `SessionMiddleware` does with the request after the session step. -/
inductive MiddlewareOutcome where
  /-- the call `next.ServeHTTP(w, r)` is made -/
  | next
  /-- the call `http.Redirect(w, r, "/login", http.StatusSeeOther)` -/
  | redirectLogin
  /-- the call `http.Error(w, "Internal Server Error", 500)` -/
  | internalServerError
deriving DecidableEq, Repr

/-- Effect of `SessionMiddleware` up to the hand-over to the wrapped handler. -/
structure MiddlewareResult where
  sessions : List SessionRow
  setCookie : Option Cookie
  outcome : MiddlewareOutcome
deriving DecidableEq, Repr

/-- Function `SessionMiddleware` of `sessions.go`. Storage calls: 0 to 3 those of
`UpsertSession`, 4 the `SELECT EXISTS(SELECT 1 FROM sessions WHERE token = ?)`,
5 `UpdateSessionActivity`. -/
def SessionMiddleware (fault : Faults) (now : Int) (uuid : String)
    (sessions : List SessionRow) (r : Request) : MiddlewareResult :=
  match r.session_token with
  | none =>
    match generateSessionToken uuid with
    | (_, some _) => ⟨sessions, none, .internalServerError⟩
    | (newToken, none) =>
      let expiry := now + 24 * Hour
      let up := UpsertSession fault now sessions none newToken expiry true
      ⟨up.2, some ⟨"session_token", newToken, expiry⟩, .next⟩
  | some token =>
    let found : Except Err Bool :=
      if fault 4 then .error .storage
      else .ok (sessions.any (fun s => decide (s.token = token)))
    match found with
    | .ok true =>
      let up := UpdateSessionActivity (fun i => fault (i + 5)) now sessions token
      ⟨up.2, none, .next⟩
    | _ => ⟨sessions, some ⟨"session_token", "", now + (-1) * Hour⟩, .redirectLogin⟩

/-! ## The like handlers -/

/-- Go `strconv.Atoi` on a 64-bit platform: an optional sign, then one or more
ASCII digits; `none` stands for a syntax or range error. -/
def Atoi (s : String) : Option Int :=
  let cs := s.toList
  let signed : Bool × List Char :=
    match cs with
    | '-' :: t => (true, t)
    | '+' :: t => (false, t)
    | _ => (false, cs)
  if signed.2.isEmpty then none
  else if signed.2.all Char.isDigit then
    let n : Nat := signed.2.foldl (fun a c => 10 * a + (c.toNat - 48)) 0
    let v : Int := if signed.1 then -(n : Int) else (n : Int)
    if -(2 ^ 63 : Int) ≤ v ∧ v < 2 ^ 63 then some v else none
  else none

/-- Go `strconv.ParseBool`; `none` stands for a syntax error. -/
def ParseBool (str : String) : Option Bool :=
  if str = "1" ∨ str = "t" ∨ str = "T" ∨ str = "TRUE" ∨ str = "true" ∨ str = "True" then
    some true
  else if str = "0" ∨ str = "f" ∨ str = "F" ∨ str = "FALSE" ∨ str = "false"
      ∨ str = "False" then
    some false
  else none

/-- What a like handler writes to the client. -/
inductive Response where
  /-- the page of `Error400Handler` -/
  | error400
  /-- the page of `Error404Handler` -/
  | error404
  /-- the page of `Error500Handler` -/
  | error500
  /-- the JSON object with keys `likes` and `dislikes` -/
  | json (likes dislikes : Nat)
  /-- run-time nil pointer dereference: `user.ID` on a nil `*User` -/
  | nilDereference
deriving DecidableEq, Repr

/-- Body shared by `LikePostHandler` (`field = "post_id"`, `isPost = true`) and
`LikeCommentHandler` (`field = "comment_id"`, `isPost = false`) of
`posthandler.go`; the two differ in nothing else. Storage calls: 0 and 1 those of
`GetUserFromSession`, 2 to 5 those of `UpsertLike`, 6 that of `GetLikeCounts`. -/
def likeHandler (field : String) (isPost : Bool) (fault : Faults)
    (sessions : List SessionRow) (users : List UserRow) (likes : List LikeRow)
    (r : Request) : Response × List LikeRow :=
  if r.Method ≠ "POST" then (.error404, likes) else
  match GetUserFromSession fault sessions users r with
  | (_, some _) => (.error400, likes)
  | (user, none) =>
    match Atoi (r.FormValue field) with
    | none => (.error400, likes)
    | some targetID =>
      match ParseBool (r.FormValue "is_like") with
      | none => (.error400, likes)
      | some isLike =>
        match user with
        | none => (.nilDereference, likes)
        | some user =>
          match UpsertLike (fun i => fault (i + 2)) likes user.ID targetID isLike isPost with
          | (some _, likes1) => (.error500, likes1)
          | (none, likes1) =>
            match GetLikeCounts (fun i => fault (i + 6)) likes1 targetID isPost with
            | ((_, _, some _), likes2) => (.error500, likes2)
            | ((n, m, none), likes2) => (.json n m, likes2)

/-- Function `LikePostHandler` of `posthandler.go`. -/
def LikePostHandler (fault : Faults) (sessions : List SessionRow) (users : List UserRow)
    (likes : List LikeRow) (r : Request) : Response × List LikeRow :=
  likeHandler "post_id" true fault sessions users likes r

/-- Function `LikeCommentHandler` of `posthandler.go`. -/
def LikeCommentHandler (fault : Faults) (sessions : List SessionRow) (users : List UserRow)
    (likes : List LikeRow) (r : Request) : Response × List LikeRow :=
  likeHandler "comment_id" false fault sessions users likes r

/-! ## The transition table of the specification -/

/-- Reaction state of one (actor, target) pair as the specification names it:
`none` is None, `some true` is Liked, `some false` is Disliked. Follows the
transition table of the specification, not the code: requesting the current
polarity clears it, requesting the opposite polarity flips it, requesting from
empty inserts it. -/
def specToggle (state : Option Bool) (p : Bool) : Option Bool :=
  match state with
  | none => some p
  | some q => if q = p then none else some p

/-- Polarities of the rows that the table holds for the key of `UpsertLike`. -/
def pairRows (likes : List LikeRow) (isPost : Bool) (userID targetID : Int) : List Bool :=
  (likes.filter (likeKey isPost userID targetID)).map (fun r => r.is_like)

/-- A sequence of `UpsertLike` calls by one actor on one target, each call with
its own fault oracle and polarity. Returns the table after the last call and the
state that the transition table of the specification gives for the calls that
returned no error. -/
def upsertLikeCalls (isPost : Bool) (userID targetID : Int) :
    List LikeRow → Option Bool → List (Faults × Bool) → List LikeRow × Option Bool
  | likes, state, [] => (likes, state)
  | likes, state, (fault, p) :: rest =>
    let r := UpsertLike fault likes userID targetID p isPost
    upsertLikeCalls isPost userID targetID r.2
      (if r.1 = none then specToggle state p else state) rest

/-- The count that `GetLikeCounts` returns on a healthy store for polarity `q`:
its first result for `q = true` (likes), its second for `q = false` (dislikes). -/
def countOf (likes : List LikeRow) (isPost : Bool) (targetID : Int) (q : Bool) : Nat :=
  if q then (GetLikeCounts noFault likes targetID isPost).1.1
  else (GetLikeCounts noFault likes targetID isPost).1.2.1

/-- The table that a committed `UpsertLike` leaves: an insert when the select
finds no row, a delete when the row found has the polarity asked for, an update
otherwise. -/
def likeStep (likes : List LikeRow) (isPost : Bool) (userID targetID : Int) (isLike : Bool) :
    List LikeRow :=
  match likes.find? (likeKey isPost userID targetID) with
  | none => likes ++ [newLikeRow isPost userID targetID isLike]
  | some r =>
    if r.is_like = isLike then deleteLike likes isPost userID targetID
    else updateLike likes isPost userID targetID isLike

/-! ## Federated users -/

/-- The first candidate of `generateUsername`: `"GIT_" + name` for github;
`"GO_" + strings.Split(strings.Split(email, "@")[0], ".")[0]` for google; the
empty string for any other provider. -/
def baseUsername (email name provider : String) : String :=
  if provider = "github" then "GIT_" ++ name
  else if provider = "google" then
    "GO_" ++ String.mk ((email.toList.takeWhile (fun c => c ≠ '@')).takeWhile
      (fun c => c ≠ '.'))
  else ""

/-- The loop of `generateUsername`, run for at most `fuel` iterations; `none`
says that the loop has not returned within them. The existence query of the
iteration with suffix `suffix` is storage call `suffix - 1`; when it fails the
result is the base, an underscore and a fresh UUID. -/
def usernameLoop (fault : Faults) (uuid : String) (users : List UserRow)
    (baseUsername : String) : Nat → Nat → String → Option String
  | 0, _, _ => none
  | fuel + 1, suffix, username =>
    if fault (suffix - 1) then some (baseUsername ++ "_" ++ uuid)
    else if users.any (fun u => decide (u.username = username)) then
      usernameLoop fault uuid users baseUsername fuel (suffix + 1)
        (baseUsername ++ formatDecimal (suffix + 1))
    else some username

/-- Function `generateUsername` of `auth.go`, with as many iterations as the users
table has rows, plus one. The suffix is a `Nat`: it stays below the number of
rows plus two. -/
def generateUsername (fault : Faults) (uuid : String) (users : List UserRow)
    (email name provider : String) : Option String :=
  usernameLoop fault uuid users (baseUsername email name provider) (users.length + 1) 1
    (baseUsername email name provider)

/-- The id that `INTEGER PRIMARY KEY AUTOINCREMENT` gives to a new row: one more
than the largest id the table holds or has held (`seq`, the entry of the table
in `sqlite_sequence`). -/
def nextUserID (seq : Int) (users : List UserRow) : Int :=
  users.foldl (fun m u => max m u.id) (max seq 0) + 1

/-- Runs `INSERT INTO users (username, email, password) VALUES (?, ?, ?)` against
the schema of `CreateTables` (`username` and `email` are UNIQUE NOT NULL) and
gives the new id (`result.LastInsertId()`) and the table. -/
def insertUser (seq : Int) (users : List UserRow) (username email password : String) :
    Except Err (Int × List UserRow) :=
  if users.any (fun u => decide (u.username = username) || decide (u.email = email)) then
    .error .uniqueViolation
  else
    .ok (nextUserID seq users, users ++ [⟨nextUserID seq users, username, email, password⟩])

/-- Function `GetOrCreateUser` of `auth.go`; `none` says that `generateUsername`
has not returned. The Go result `(*User, error)` is a user with a nil error, or
nil with an error; next to it stands the users table after the call. Storage
calls: 0 the SELECT by email, 1 the INSERT, 2 `result.LastInsertId()`, 3 and up
the existence queries of `generateUsername`. -/
def GetOrCreateUser (fault : Faults) (uuid : String) (seq : Int) (users : List UserRow)
    (email name provider : String) : Option (Except Err User × List UserRow) :=
  if fault 0 then some (.error .storage, users) else
  match users.find? (fun u => decide (u.email = email)) with
  | some u => some (.ok ⟨u.id, u.username, u.email, ""⟩, users)
  | none =>
    (generateUsername (fun i => fault (i + 3)) uuid users email name provider).map
      (fun username =>
        match (if fault 1 then Except.error Err.storage
               else insertUser seq users username email "") with
        | .error e => (.error e, users)
        | .ok (userID, users1) =>
          if fault 2 then (.error .storage, users1)
          else (.ok ⟨userID, username, email, ""⟩, users1))

/-- What an OAuth callback leaves: the two tables, the cookie set (name, value
and expiry; the other attributes are left out), and the redirect with its
location and status code. -/
structure CallbackResult where
  users : List UserRow
  sessions : List SessionRow
  setCookie : Option Cookie
  location : String
  status : Nat
deriving DecidableEq, Repr

/-- Function `createSessionAndRedirect` of `auth.go`, on the sessions table;
`sfault` is the fault oracle of `UpsertSession`. Gives the sessions table, the
cookie set and the status code of the redirect to "/". -/
def createSessionAndRedirect (sfault : Faults) (now : Int) (tokenUuid : String)
    (sessions : List SessionRow) (user : User) : List SessionRow × Option Cookie × Nat :=
  match generateSessionToken tokenUuid with
  | (_, some _) => (sessions, none, 307)
  | (sessionToken, none) =>
    let expiryTime := now + 24 * Hour
    match UpsertSession sfault now sessions (some user.ID) sessionToken expiryTime false with
    | (some _, sessions1) => (sessions1, none, 307)
    | (none, sessions1) => (sessions1, some ⟨"session_token", sessionToken, expiryTime⟩, 303)

/-- The user info that the Google endpoint returns, as the handler decodes it. -/
structure GoogleUserInfo where
  Email : String
  Name : String
deriving DecidableEq, Repr

/-- The user info that the GitHub endpoint returns, as the handler decodes it. -/
structure GithubUserInfo where
  Email : String
  Name : String
  Login : String
deriving DecidableEq, Repr

/-- One entry of the GitHub email list, as the handler decodes it. -/
structure GithubEmail where
  Email : String
  Primary : Bool
  Verified : Bool
deriving DecidableEq, Repr

/-- The tail shared by the two callbacks: `GetOrCreateUser`, then on an error the
redirect with status 307, else `createSessionAndRedirect`. -/
def createUserAndSession (fault sfault : Faults) (now : Int) (uuid tokenUuid : String)
    (seq : Int) (users : List UserRow) (sessions : List SessionRow)
    (email name provider : String) : Option CallbackResult :=
  (GetOrCreateUser fault uuid seq users email name provider).map (fun res =>
    match res with
    | (.error _, users1) => ⟨users1, sessions, none, "/", 307⟩
    | (.ok user, users1) =>
      let out := createSessionAndRedirect sfault now tokenUuid sessions user
      ⟨users1, out.1, out.2.1, "/", out.2.2⟩)

/-- Function `GoogleCallbackHandler` of `auth.go`. The exchange with the provider is
an argument: `fetched` is the decoded user info, or `none` when the code
exchange, the request, the read or the decoding failed. -/
def GoogleCallbackHandler (fault sfault : Faults) (now : Int) (uuid tokenUuid : String)
    (seq : Int) (users : List UserRow) (sessions : List SessionRow)
    (oauthStateString : String) (r : Request) (fetched : Option GoogleUserInfo) :
    Option CallbackResult :=
  if r.FormValue "state" ≠ oauthStateString then some ⟨users, sessions, none, "/", 307⟩ else
  match fetched with
  | none => some ⟨users, sessions, none, "/", 307⟩
  | some userInfo =>
    createUserAndSession fault sfault now uuid tokenUuid seq users sessions
      userInfo.Email userInfo.Name "google"

/-- The email that `GithubCallbackHandler` holds after its fallback: the one of the
user info when it is not empty, else the first primary and verified entry of the
email list, else the empty string. -/
def githubEmail (userInfo : GithubUserInfo) (emails : List GithubEmail) : String :=
  if userInfo.Email = "" then
    match emails.find? (fun e => e.Primary && e.Verified) with
    | some e => e.Email
    | none => ""
  else userInfo.Email

/-- Function `GithubCallbackHandler` of `auth.go`. The exchange with the provider is
an argument: `fetched` is the decoded user info and `emails` the decoded email
list, each `none` when its request or decoding failed. -/
def GithubCallbackHandler (fault sfault : Faults) (now : Int) (uuid tokenUuid : String)
    (seq : Int) (users : List UserRow) (sessions : List SessionRow)
    (oauthStateString : String) (r : Request) (fetched : Option GithubUserInfo)
    (emails : Option (List GithubEmail)) : Option CallbackResult :=
  if r.FormValue "state" ≠ oauthStateString then some ⟨users, sessions, none, "/", 307⟩ else
  match fetched with
  | none => some ⟨users, sessions, none, "/", 307⟩
  | some userInfo =>
    match (if userInfo.Email = "" then emails else some []) with
    | none => some ⟨users, sessions, none, "/", 307⟩
    | some list =>
      if githubEmail userInfo list = "" then some ⟨users, sessions, none, "/", 307⟩
      else
        createUserAndSession fault sfault now uuid tokenUuid seq users sessions
          (githubEmail userInfo list) userInfo.Login "github"

/-! ## Deleting a post -/

/-- One row of `posts`, without its two timestamps: `id`, `user_id INTEGER`,
`title`, `content`, `image_filename TEXT`. -/
structure PostRow where
  id : Int
  user_id : Option Int
  title : String
  content : String
  image_filename : Option String
deriving DecidableEq, Repr

/-- One row of `comments`, without its two timestamps. -/
structure CommentRow where
  id : Int
  post_id : Option Int
  user_id : Option Int
  content : String
deriving DecidableEq, Repr

/-- One row of `post_categories`. -/
structure PostCategoryRow where
  post_id : Option Int
  category_id : Option Int
deriving DecidableEq, Repr

/-- The four tables that `deletePost` works on. -/
structure ForumDB where
  post_categories : List PostCategoryRow
  likes : List LikeRow
  comments : List CommentRow
  posts : List PostRow
deriving DecidableEq, Repr

/-- Runs `tx.QueryRow("SELECT image_filename FROM posts WHERE id = ?").Scan(&imageFilename)`
with `imageFilename string`: no row is `sql.ErrNoRows`, a NULL is a scan error. -/
def scanImageFilename (posts : List PostRow) (postID : Int) : Except Err String :=
  match posts.find? (fun p => decide (p.id = postID)) with
  | none => .error .noRows
  | some p =>
    match p.image_filename with
    | none => .error .scan
    | some f => .ok f

/-- Function `deletePost` of `posthandler.go`. Storage calls: 0 `DB.Begin`, 1 to 3 the
DELETEs on `post_categories`, `likes`, `comments`, 4 the SELECT of the image
file name, 5 the DELETE on `posts`, 6 `tx.Commit`. The result is the error, the
tables after the call, and the file that `DeleteImage` was called on. -/
def deletePost (fault : Faults) (db : ForumDB) (postID : Int) :
    Option Err × ForumDB × Option String :=
  if fault 0 then (some .storage, db, none) else
  if fault 1 then (some .storage, db, none) else
  let tx1 := { db with
    post_categories := db.post_categories.filter (fun c => !decide (c.post_id = some postID)) }
  if fault 2 then (some .storage, db, none) else
  let tx2 := { tx1 with likes := tx1.likes.filter (fun l => !decide (l.post_id = some postID)) }
  if fault 3 then (some .storage, db, none) else
  let tx3 := { tx2 with
    comments := tx2.comments.filter (fun c => !decide (c.post_id = some postID)) }
  let scanned : Except Err String :=
    if fault 4 then .error .storage else scanImageFilename tx3.posts postID
  let imageFilename : Except Err String :=
    match scanned with
    | .error .noRows => .ok ""
    | .error e => .error e
    | .ok f => .ok f
  match imageFilename with
  | .error e => (some e, db, none)
  | .ok imageFilename =>
    if fault 5 then (some .storage, db, none) else
    let tx4 := { tx3 with posts := tx3.posts.filter (fun p => !decide (p.id = postID)) }
    let removed : Option String := if imageFilename ≠ "" then some imageFilename else none
    if fault 6 then (some .storage, db, removed) else (none, tx4, removed)

/-! ## Lemmas on the likes table -/

theorem find?_eq_head?_filter {α : Type} (p : α → Bool) (l : List α) :
    l.find? p = (l.filter p).head? := by
  induction l with
  | nil => rfl
  | cons a t ih =>
    rw [List.find?_cons, List.filter_cons]
    cases h : p a
    · exact ih
    · rfl

theorem uniqueConflict_newLikeRow (isPost : Bool) (u t : Int) (p : Bool) (b : LikeRow) :
    uniqueConflict (newLikeRow isPost u t p) b = false := by
  cases isPost <;> simp [uniqueConflict, newLikeRow, uniqueColEq]

theorem insertLike_newLikeRow (likes : List LikeRow) (isPost : Bool) (u t : Int) (p : Bool) :
    insertLike likes (newLikeRow isPost u t p) = .ok (likes ++ [newLikeRow isPost u t p]) := by
  simp [insertLike, uniqueConflict_newLikeRow]

theorem likeKey_newLikeRow (isPost : Bool) (u t : Int) (p : Bool) :
    likeKey isPost u t (newLikeRow isPost u t p) = true := by
  cases isPost <;> simp [likeKey, newLikeRow]

theorem likeKey_set_is_like (isPost : Bool) (u t : Int) (r : LikeRow) (p : Bool) :
    likeKey isPost u t { r with is_like := p } = likeKey isPost u t r := by
  cases isPost <;> simp [likeKey]

/-- The table that a committed `UpsertLike` leaves, and the only way it fails:
a storage fault at one of its four calls, after which the table is as before. -/
theorem UpsertLike_eq (fault : Faults) (likes : List LikeRow) (u t : Int) (p isPost : Bool) :
    UpsertLike fault likes u t p isPost =
      if fault 0 || fault 1 || fault 2 || fault 3 then (some Err.storage, likes)
      else (none,
        match likes.find? (likeKey isPost u t) with
        | none => likes ++ [newLikeRow isPost u t p]
        | some r =>
          if r.is_like = p then deleteLike likes isPost u t
          else updateLike likes isPost u t p) := by
  unfold UpsertLike selectIsLike
  cases h0 : fault 0 <;> cases h1 : fault 1 <;> cases h2 : fault 2 <;> cases h3 : fault 3 <;>
    (cases hf : likes.find? (likeKey isPost u t) with
     | none => simp [insertLike_newLikeRow]
     | some r => by_cases hr : r.is_like = p <;> simp [hr])

theorem UpsertLike_committed {fault : Faults} {likes likes1 : List LikeRow} {u t : Int}
    {p isPost : Bool} (h : UpsertLike fault likes u t p isPost = (none, likes1)) :
    likes1 =
      match likes.find? (likeKey isPost u t) with
      | none => likes ++ [newLikeRow isPost u t p]
      | some r =>
        if r.is_like = p then deleteLike likes isPost u t
        else updateLike likes isPost u t p := by
  rw [UpsertLike_eq] at h
  split at h
  · simp at h
  · exact (Prod.mk.inj h).2.symm

theorem pairRows_append_new (likes : List LikeRow) (isPost : Bool) (u t : Int) (p : Bool) :
    pairRows (likes ++ [newLikeRow isPost u t p]) isPost u t = pairRows likes isPost u t ++ [p] := by
  have hp : (newLikeRow isPost u t p).is_like = p := by cases isPost <;> rfl
  simp [pairRows, List.filter_cons, likeKey_newLikeRow, hp]

theorem pairRows_deleteLike (likes : List LikeRow) (isPost : Bool) (u t : Int) :
    pairRows (deleteLike likes isPost u t) isPost u t = [] := by
  simp [pairRows, deleteLike]

theorem pairRows_updateLike (likes : List LikeRow) (isPost : Bool) (u t : Int) (p : Bool) :
    pairRows (updateLike likes isPost u t p) isPost u t
      = (pairRows likes isPost u t).map (fun _ => p) := by
  induction likes with
  | nil => rfl
  | cons a l ih =>
    simp only [pairRows, updateLike] at ih ⊢
    by_cases h : likeKey isPost u t a = true
    · simp [List.filter_cons, h, likeKey_set_is_like, ih]
    · simp [List.filter_cons, h, ih]

theorem find?_of_pairRows_nil {likes : List LikeRow} {isPost : Bool} {u t : Int}
    (h : pairRows likes isPost u t = []) : likes.find? (likeKey isPost u t) = none := by
  rw [find?_eq_head?_filter]
  simp only [pairRows, List.map_eq_nil_iff] at h
  rw [h]; rfl

theorem find?_of_pairRows_cons {likes : List LikeRow} {isPost : Bool} {u t : Int} {q : Bool}
    {qs : List Bool} (h : pairRows likes isPost u t = q :: qs) :
    ∃ r, likes.find? (likeKey isPost u t) = some r ∧ r.is_like = q := by
  rw [find?_eq_head?_filter]
  simp only [pairRows] at h
  cases hf : likes.filter (likeKey isPost u t) with
  | nil => simp [hf] at h
  | cons a l =>
    rw [hf] at h
    simp only [List.map_cons, List.cons.injEq] at h
    exact ⟨a, rfl, h.1⟩

/-- One call against the state of the pair: a committed call moves the state as
the transition table says, a failed call leaves the table as it was. -/
theorem UpsertLike_state (fault : Faults) (likes : List LikeRow) (u t : Int) (p isPost : Bool)
    (s : Option Bool) (hs : pairRows likes isPost u t = s.toList) :
    pairRows (UpsertLike fault likes u t p isPost).2 isPost u t
      = (if (UpsertLike fault likes u t p isPost).1 = none then specToggle s p else s).toList := by
  rw [UpsertLike_eq]
  by_cases hfl : (fault 0 || fault 1 || fault 2 || fault 3) = true
  · simp [hfl, hs]
  · simp only [hfl, if_false, if_true]
    cases s with
    | none =>
      rw [find?_of_pairRows_nil hs]
      simp [pairRows_append_new, hs, specToggle]
    | some q =>
      obtain ⟨r, hr, hq⟩ := find?_of_pairRows_cons hs
      rw [hr]
      by_cases hqp : q = p
      · simp [hq, hqp, pairRows_deleteLike, specToggle]
      · simp [hq, hqp, pairRows_updateLike, hs, specToggle]

theorem upsertLikeCalls_state_aux (isPost : Bool) (u t : Int) (calls : List (Faults × Bool)) :
    ∀ (likes : List LikeRow) (s : Option Bool), pairRows likes isPost u t = s.toList →
      pairRows (upsertLikeCalls isPost u t likes s calls).1 isPost u t
        = (upsertLikeCalls isPost u t likes s calls).2.toList := by
  induction calls with
  | nil => intro likes s hs; simpa [upsertLikeCalls] using hs
  | cons c rest ih =>
    intro likes s hs
    obtain ⟨fault, p⟩ := c
    simp only [upsertLikeCalls]
    exact ih _ _ (UpsertLike_state fault likes u t p isPost s hs)

theorem upsertLikeCalls_noFault (isPost : Bool) (u t : Int) (ps : List Bool) :
    ∀ (likes : List LikeRow) (s : Option Bool),
      (upsertLikeCalls isPost u t likes s (ps.map (fun p => (noFault, p)))).2
        = ps.foldl specToggle s := by
  induction ps with
  | nil => intro likes s; rfl
  | cons p rest ih =>
    intro likes s
    simp only [List.map_cons, upsertLikeCalls, List.foldl_cons]
    rw [ih]
    simp [UpsertLike_eq, noFault]

theorem likeKey_targetMatch {isPost : Bool} {u t : Int} {r : LikeRow}
    (h : likeKey isPost u t r = true) : targetMatch isPost t r = true := by
  cases isPost <;> simp_all [likeKey, targetMatch]

theorem targetMatch_set_is_like (isPost : Bool) (t : Int) (r : LikeRow) (p : Bool) :
    targetMatch isPost t { r with is_like := p } = targetMatch isPost t r := by
  cases isPost <;> simp [targetMatch]

theorem targetMatch_newLikeRow (isPost : Bool) (u t : Int) (p : Bool) :
    targetMatch isPost t (newLikeRow isPost u t p) = true :=
  likeKey_targetMatch (likeKey_newLikeRow isPost u t p)

theorem countOf_eq_countP (likes : List LikeRow) (isPost : Bool) (t : Int) (q : Bool) :
    countOf likes isPost t q
      = likes.countP (fun r => targetMatch isPost t r && decide (r.is_like = q)) := by
  have hsum : ∀ (l : List LikeRow),
      ((l.filter (targetMatch isPost t)).map (fun r => if r.is_like = q then 1 else 0)).sum
        = l.countP (fun r => targetMatch isPost t r && decide (r.is_like = q)) := by
    intro l
    induction l with
    | nil => rfl
    | cons a l ih =>
      by_cases h1 : targetMatch isPost t a = true <;> by_cases h2 : a.is_like = q <;>
        simp [List.filter_cons, List.countP_cons, h1, h2, ih, Nat.add_comm]
  cases q
  · simpa [countOf, GetLikeCounts, noFault] using hsum likes
  · simpa [countOf, GetLikeCounts, noFault] using hsum likes

/-- The count of a polarity splits into the rows of the pair and the rows of the
other actors on the target. -/
theorem countOf_split (likes : List LikeRow) (isPost : Bool) (u t : Int) (q : Bool) :
    countOf likes isPost t q
      = (pairRows likes isPost u t).count q
        + likes.countP (fun r =>
            targetMatch isPost t r && !likeKey isPost u t r && decide (r.is_like = q)) := by
  rw [countOf_eq_countP]
  induction likes with
  | nil => rfl
  | cons a l ih =>
    simp only [pairRows] at ih ⊢
    by_cases hk : likeKey isPost u t a = true
    · have ht := likeKey_targetMatch hk
      by_cases hq : a.is_like = q
      · simp [List.countP_cons, List.filter_cons, hk, ht, hq, ih]; omega
      · have hq2 : ¬ (q = a.is_like) := fun h => hq h.symm
        simp [List.countP_cons, List.filter_cons, hk, ht, hq, ih, List.count_cons, hq2]
    · by_cases ht : targetMatch isPost t a = true <;> by_cases hq : a.is_like = q <;>
        first
        | (simp [List.countP_cons, List.filter_cons, hk, ht, hq, ih]; done)
        | (simp [List.countP_cons, List.filter_cons, hk, ht, hq, ih]; omega)

/-- No call of `UpsertLike` changes the rows of the other actors on the target. -/
theorem UpsertLike_others (fault : Faults) (likes : List LikeRow) (u t : Int) (p isPost : Bool)
    (q : Bool) :
    (UpsertLike fault likes u t p isPost).2.countP (fun r =>
        targetMatch isPost t r && !likeKey isPost u t r && decide (r.is_like = q))
      = likes.countP (fun r =>
        targetMatch isPost t r && !likeKey isPost u t r && decide (r.is_like = q)) := by
  rw [UpsertLike_eq]
  split
  · rfl
  · simp only
    split
    · simp [List.countP_append, List.countP_cons, likeKey_newLikeRow]
    · split
      · simp only [deleteLike, List.countP_filter]
        congr 1
        funext r
        cases likeKey isPost u t r <;> simp
      · simp only [updateLike, List.countP_map]
        congr 1
        funext r
        by_cases hk : likeKey isPost u t r = true
        · simp [hk, likeKey_set_is_like]
        · simp [hk]

/-- Count balance of one call: what the count of a polarity gains or loses is what
the rows of the pair gain or lose. -/
theorem UpsertLike_count_balance (fault : Faults) (likes : List LikeRow) (u t : Int)
    (p isPost : Bool) (q : Bool) :
    countOf (UpsertLike fault likes u t p isPost).2 isPost t q
        + (pairRows likes isPost u t).count q
      = countOf likes isPost t q
        + (pairRows (UpsertLike fault likes u t p isPost).2 isPost u t).count q := by
  rw [countOf_split _ isPost u t q, countOf_split likes isPost u t q, UpsertLike_others]
  omega

theorem likeHandler_of_user {field : String} {isPost : Bool} {fault : Faults}
    {sessions : List SessionRow} {users : List UserRow} (likes : List LikeRow) {r : Request}
    {user : User} {targetID : Int} {isLike : Bool}
    (hm : r.Method = "POST")
    (hu : GetUserFromSession fault sessions users r = (some user, none))
    (ht : Atoi (r.FormValue field) = some targetID)
    (hp : ParseBool (r.FormValue "is_like") = some isLike) :
    likeHandler field isPost fault sessions users likes r =
      match UpsertLike (fun i => fault (i + 2)) likes user.ID targetID isLike isPost with
      | (some _, likes1) => (.error500, likes1)
      | (none, likes1) =>
        match GetLikeCounts (fun i => fault (i + 6)) likes1 targetID isPost with
        | ((_, _, some _), likes2) => (.error500, likes2)
        | ((n, m, none), likes2) => (.json n m, likes2) := by
  simp [likeHandler, hm, hu, ht, hp]

theorem UpsertLike_noFault_fst (likes : List LikeRow) (u t : Int) (p isPost : Bool) :
    (UpsertLike noFault likes u t p isPost).1 = none := by
  simp [UpsertLike_eq, noFault]

/-- On a healthy store a like handler that resolves a user and parses its form
answers with the counts of the table that `UpsertLike` leaves. -/
theorem likeHandler_noFault {field : String} {isPost : Bool}
    {sessions : List SessionRow} {users : List UserRow} (likes : List LikeRow) {r : Request}
    {user : User} {targetID : Int} {isLike : Bool}
    (hm : r.Method = "POST")
    (hu : GetUserFromSession noFault sessions users r = (some user, none))
    (ht : Atoi (r.FormValue field) = some targetID)
    (hp : ParseBool (r.FormValue "is_like") = some isLike) :
    likeHandler field isPost noFault sessions users likes r =
      (.json
        (countOf (UpsertLike noFault likes user.ID targetID isLike isPost).2 isPost targetID true)
        (countOf (UpsertLike noFault likes user.ID targetID isLike isPost).2 isPost targetID
          false),
        (UpsertLike noFault likes user.ID targetID isLike isPost).2) := by
  rw [likeHandler_of_user likes hm hu ht hp]
  have hf : (fun i => noFault (i + 2)) = noFault := rfl
  rw [hf]
  have h1 := UpsertLike_noFault_fst likes user.ID targetID isLike isPost
  generalize UpsertLike noFault likes user.ID targetID isLike isPost = res at h1 ⊢
  obtain ⟨e, likes1⟩ := res
  simp only at h1
  subst h1
  simp [GetLikeCounts, countOf, noFault]

/-- One call on a healthy store: the state of the pair moves as the transition
table says and the counts follow the rows of the pair. -/
theorem UpsertLike_noFault_step (likes : List LikeRow) (u t : Int) (p isPost : Bool)
    (s : Option Bool) (hs : pairRows likes isPost u t = s.toList) :
    pairRows (UpsertLike noFault likes u t p isPost).2 isPost u t = (specToggle s p).toList ∧
    ∀ q, countOf (UpsertLike noFault likes u t p isPost).2 isPost t q + s.toList.count q
      = countOf likes isPost t q + (specToggle s p).toList.count q := by
  have hst := UpsertLike_state noFault likes u t p isPost s hs
  simp only [UpsertLike_noFault_fst, if_true] at hst
  refine ⟨hst, fun q => ?_⟩
  have hb := UpsertLike_count_balance noFault likes u t p isPost q
  rw [hs, hst] at hb
  exact hb

/-! ## Reactions: the claims -/

/-- C1: a successful `UpsertLike` on a table with at most one row for the pair
follows the transition table. The state of the pair is one of: no row, a row of
the requested polarity, a row of the opposite polarity. With no row the call
appends the one row `newLikeRow`; with a row of the requested polarity it deletes
the rows of the pair; with a row of the opposite polarity it updates that row to
the requested polarity. -/
theorem UpsertLike_transition_table (fault : Faults) (likes likes1 : List LikeRow)
    (userID targetID : Int) (isLike isPost : Bool)
    (hone : (likes.filter (likeKey isPost userID targetID)).length ≤ 1)
    (hok : UpsertLike fault likes userID targetID isLike isPost = (none, likes1)) :
    (pairRows likes isPost userID targetID = [] ∨
      pairRows likes isPost userID targetID = [isLike] ∨
      pairRows likes isPost userID targetID = [!isLike]) ∧
    (pairRows likes isPost userID targetID = [] →
      likes1 = likes ++ [newLikeRow isPost userID targetID isLike] ∧
      pairRows likes1 isPost userID targetID = [isLike]) ∧
    (pairRows likes isPost userID targetID = [isLike] →
      likes1 = likes.filter (fun r => !likeKey isPost userID targetID r) ∧
      pairRows likes1 isPost userID targetID = []) ∧
    (pairRows likes isPost userID targetID = [!isLike] →
      likes1 = likes.map (fun r =>
        if likeKey isPost userID targetID r then { r with is_like := isLike } else r) ∧
      pairRows likes1 isPost userID targetID = [isLike]) := by
  replace hok := UpsertLike_committed hok
  · refine ⟨?_, ?_, ?_, ?_⟩
    · have hlen : (pairRows likes isPost userID targetID).length ≤ 1 := by
        simpa [pairRows] using hone
      match hp : pairRows likes isPost userID targetID, hlen with
      | [], _ => exact Or.inl rfl
      | [q], _ =>
        by_cases hq : q = isLike
        · exact Or.inr (Or.inl (by rw [hq]))
        · refine Or.inr (Or.inr ?_)
          cases q <;> cases isLike <;> simp_all
    · intro hs
      rw [find?_of_pairRows_nil hs] at hok
      subst hok
      exact ⟨rfl, by rw [pairRows_append_new, hs]; rfl⟩
    · intro hs
      obtain ⟨r, hr, hq⟩ := find?_of_pairRows_cons hs
      rw [hr] at hok
      simp only [hq, if_true] at hok
      subst hok
      exact ⟨rfl, pairRows_deleteLike likes isPost userID targetID⟩
    · intro hs
      obtain ⟨r, hr, hq⟩ := find?_of_pairRows_cons hs
      rw [hr] at hok
      have hne : ¬ (r.is_like = isLike) := by rw [hq]; cases isLike <;> decide
      simp only [hne, if_false] at hok
      subst hok
      exact ⟨rfl, by rw [pairRows_updateLike, hs]; rfl⟩

/-- Witness of C1: actor 3 holds a like on post 9 and asks for a dislike. -/
theorem UpsertLike_transition_table_witness :
    [(⟨3, some 9, none, false⟩ : LikeRow)] =
        [(⟨3, some 9, none, true⟩ : LikeRow)].map (fun r =>
          if likeKey true 3 9 r then { r with is_like := false } else r) ∧
      pairRows [(⟨3, some 9, none, false⟩ : LikeRow)] true 3 9 = [false] :=
  (UpsertLike_transition_table noFault [⟨3, some 9, none, true⟩] [⟨3, some 9, none, false⟩]
    3 9 false true (by decide) (by decide)).2.2.2 (by decide)

/-- C2: for every finite sequence of `UpsertLike` calls by one actor on one
target, started from a table with no row for the pair, after each call (after
every initial segment of the sequence) the table holds zero or one row for the
pair, and the polarity of that row, or its absence, is the state that the
transition table gives for the calls that returned no error; on a healthy store
every call returns no error, and the state is the transition table folded over
all the calls made so far. -/
theorem upsertLikeCalls_follow_transition_table (isPost : Bool) (userID targetID : Int)
    (likes : List LikeRow) (h0 : pairRows likes isPost userID targetID = []) :
    (∀ (calls : List (Faults × Bool)) (n : Nat),
      pairRows (upsertLikeCalls isPost userID targetID likes none (calls.take n)).1
          isPost userID targetID
        = (upsertLikeCalls isPost userID targetID likes none (calls.take n)).2.toList ∧
      (pairRows (upsertLikeCalls isPost userID targetID likes none (calls.take n)).1
          isPost userID targetID).length ≤ 1) ∧
    (∀ (ps : List Bool) (n : Nat),
      pairRows (upsertLikeCalls isPost userID targetID likes none
          ((ps.take n).map (fun p => (noFault, p)))).1 isPost userID targetID
        = ((ps.take n).foldl specToggle none).toList) := by
  constructor
  · intro calls n
    have h := upsertLikeCalls_state_aux isPost userID targetID (calls.take n) likes none h0
    refine ⟨h, ?_⟩
    rw [h]
    cases (upsertLikeCalls isPost userID targetID likes none (calls.take n)).2 <;> simp
  · intro ps n
    rw [upsertLikeCalls_state_aux isPost userID targetID _ likes none h0,
      upsertLikeCalls_noFault]

/-- Witness of C2: actor 3 on post 9, from the empty table, asks for like,
dislike, dislike; the pair ends with no row. -/
theorem upsertLikeCalls_follow_transition_table_witness :
    pairRows (upsertLikeCalls true 3 9 [] none
        (([true, false, false].take 3).map (fun p => (noFault, p)))).1 true 3 9
      = (([true, false, false].take 3).foldl specToggle none).toList :=
  (upsertLikeCalls_follow_transition_table true 3 9 [] (by decide)).2 [true, false, false] 3

/-- C3: when `LikePostHandler` (`isPost = true`) or `LikeCommentHandler`
(`isPost = false`) answers with counts, the request resolved a user, a target
and a polarity, `UpsertLike` committed, and the counts are those of the table
after the write. Conversely each of the two handlers, on a POST that resolves a
user, a target and a polarity, answers with the two counts of the table after
the write and leaves that table, whenever `UpsertLike` commits and the count
query runs; on a healthy store it always does. Against the counts before the call: an insert adds 1 to the
count of the requested polarity, a toggle-off subtracts 1 from it, a flip
subtracts 1 from the opposite count and adds 1 to the requested one; the other
count is as before. Scenario: on a healthy store, from a table with no reaction
on post 9, the like, dislike, dislike of actor 3 on post 9 are answered with
(1,0), (0,1), (0,0). -/
theorem like_handlers_return_counts_after_write :
    (∀ (isPost : Bool) (fault : Faults) (sessions : List SessionRow) (users : List UserRow)
      (likes likes1 : List LikeRow) (r : Request) (n m : Nat),
      (if isPost then LikePostHandler else LikeCommentHandler) fault sessions users likes r
          = (.json n m, likes1) →
      ∃ (user : User) (targetID : Int) (isLike : Bool),
        GetUserFromSession fault sessions users r = (some user, none) ∧
        Atoi (r.FormValue (if isPost then "post_id" else "comment_id")) = some targetID ∧
        ParseBool (r.FormValue "is_like") = some isLike ∧
        UpsertLike (fun i => fault (i + 2)) likes user.ID targetID isLike isPost
          = (none, likes1) ∧
        n = countOf likes1 isPost targetID true ∧
        m = countOf likes1 isPost targetID false ∧
        (pairRows likes isPost user.ID targetID = [] →
          countOf likes1 isPost targetID isLike = countOf likes isPost targetID isLike + 1 ∧
          countOf likes1 isPost targetID (!isLike) = countOf likes isPost targetID (!isLike)) ∧
        (pairRows likes isPost user.ID targetID = [isLike] →
          countOf likes1 isPost targetID isLike + 1 = countOf likes isPost targetID isLike ∧
          countOf likes1 isPost targetID (!isLike) = countOf likes isPost targetID (!isLike)) ∧
        (pairRows likes isPost user.ID targetID = [!isLike] →
          countOf likes1 isPost targetID isLike = countOf likes isPost targetID isLike + 1 ∧
          countOf likes1 isPost targetID (!isLike) + 1
            = countOf likes isPost targetID (!isLike))) ∧
    (∀ (sessions : List SessionRow) (users : List UserRow) (likes : List LikeRow) (user : User)
      (r1 r2 r3 : Request),
      user.ID = 3 →
      likes.filter (targetMatch true 9) = [] →
      (∀ r ∈ [r1, r2, r3], r.Method = "POST" ∧
        GetUserFromSession noFault sessions users r = (some user, none) ∧
        Atoi (r.FormValue "post_id") = some 9) →
      ParseBool (r1.FormValue "is_like") = some true →
      ParseBool (r2.FormValue "is_like") = some false →
      ParseBool (r3.FormValue "is_like") = some false →
      ∃ (l1 l2 l3 : List LikeRow),
        LikePostHandler noFault sessions users likes r1 = (.json 1 0, l1) ∧
        LikePostHandler noFault sessions users l1 r2 = (.json 0 1, l2) ∧
        LikePostHandler noFault sessions users l2 r3 = (.json 0 0, l3)) ∧
    (∀ (isPost : Bool) (fault : Faults) (sessions : List SessionRow) (users : List UserRow)
      (likes likes1 : List LikeRow) (r : Request) (user : User) (targetID : Int) (isLike : Bool),
      r.Method = "POST" →
      GetUserFromSession fault sessions users r = (some user, none) →
      Atoi (r.FormValue (if isPost then "post_id" else "comment_id")) = some targetID →
      ParseBool (r.FormValue "is_like") = some isLike →
      UpsertLike (fun i => fault (i + 2)) likes user.ID targetID isLike isPost = (none, likes1) →
      fault 6 = false →
      (if isPost then LikePostHandler else LikeCommentHandler) fault sessions users likes r
        = (.json (countOf likes1 isPost targetID true) (countOf likes1 isPost targetID false),
            likes1)) ∧
    (∀ (isPost : Bool) (sessions : List SessionRow) (users : List UserRow)
      (likes : List LikeRow) (r : Request) (user : User) (targetID : Int) (isLike : Bool),
      r.Method = "POST" →
      GetUserFromSession noFault sessions users r = (some user, none) →
      Atoi (r.FormValue (if isPost then "post_id" else "comment_id")) = some targetID →
      ParseBool (r.FormValue "is_like") = some isLike →
      (UpsertLike noFault likes user.ID targetID isLike isPost).1 = none ∧
      (if isPost then LikePostHandler else LikeCommentHandler) noFault sessions users likes r
        = (.json
            (countOf (UpsertLike noFault likes user.ID targetID isLike isPost).2 isPost targetID
              true)
            (countOf (UpsertLike noFault likes user.ID targetID isLike isPost).2 isPost targetID
              false),
            (UpsertLike noFault likes user.ID targetID isLike isPost).2)) := by
  refine ⟨?_, ?_, ?_, ?_⟩
  · intro isPost fault sessions users likes likes1 r n m hresp
    have hresp2 : likeHandler (if isPost then "post_id" else "comment_id") isPost fault sessions
        users likes r = (.json n m, likes1) := by
      cases isPost
      · exact hresp
      · exact hresp
    clear hresp
    generalize (if isPost then "post_id" else "comment_id") = field at hresp2 ⊢
    unfold likeHandler at hresp2
    by_cases hm : r.Method = "POST"
    swap
    · simp [hm] at hresp2
    simp only [hm, ne_eq, not_true_eq_false, if_false] at hresp2
    rcases hu : GetUserFromSession fault sessions users r with ⟨user, err⟩
    rw [hu] at hresp2
    cases err with
    | some e => simp at hresp2
    | none =>
      simp only at hresp2
      cases ht : Atoi (r.FormValue field) with
      | none => simp [ht] at hresp2
      | some targetID =>
        cases hp : ParseBool (r.FormValue "is_like") with
        | none => simp [ht, hp] at hresp2
        | some isLike =>
          cases user with
          | none => simp [ht, hp] at hresp2
          | some user =>
            simp only [ht, hp] at hresp2
            rcases hup : UpsertLike (fun i => fault (i + 2)) likes user.ID targetID isLike isPost
              with ⟨e, tbl⟩
            rw [hup] at hresp2
            cases e with
            | some e => simp at hresp2
            | none =>
              simp only at hresp2
              have hg : GetLikeCounts (fun i => fault (i + 6)) tbl targetID isPost
                  = ((n, m, none), tbl) ∧ tbl = likes1 := by
                unfold GetLikeCounts at hresp2 ⊢
                by_cases h6 : fault (0 + 6) = true
                · simp [h6] at hresp2
                · simp only [h6, Bool.false_eq_true, if_false, Prod.mk.injEq,
                    Response.json.injEq] at hresp2 ⊢
                  exact ⟨⟨⟨hresp2.1.1, hresp2.1.2, trivial⟩, trivial⟩, hresp2.2⟩
              obtain ⟨hg1, hg2⟩ := hg
              subst hg2
              have hn : n = countOf tbl isPost targetID true ∧
                  m = countOf tbl isPost targetID false := by
                unfold GetLikeCounts at hg1
                by_cases h6 : fault (0 + 6) = true
                · simp [h6] at hg1
                · simp only [h6, Bool.false_eq_true, if_false, Prod.mk.injEq, and_true] at hg1
                  simp [countOf, GetLikeCounts, noFault, hg1.1, hg1.2]
              have hbal := fun q =>
                UpsertLike_count_balance (fun i => fault (i + 2)) likes user.ID targetID isLike
                  isPost q
              have hst := fun s hs =>
                UpsertLike_state (fun i => fault (i + 2)) likes user.ID targetID isLike isPost s hs
              simp only [hup] at hbal hst
              refine ⟨user, targetID, isLike, rfl, rfl, rfl, hup, hn.1, hn.2, ?_, ?_, ?_⟩
              · intro hs
                have h1 := hbal isLike
                have h2 := hbal (!isLike)
                have h3 := hst none hs
                rw [hs, h3] at h1 h2
                cases isLike <;> simp [specToggle] at h1 h2 ⊢ <;> omega
              · intro hs
                have h1 := hbal isLike
                have h2 := hbal (!isLike)
                have h3 := hst (some isLike) hs
                rw [hs, h3] at h1 h2
                cases isLike <;> simp [specToggle] at h1 h2 ⊢ <;> omega
              · intro hs
                have h1 := hbal isLike
                have h2 := hbal (!isLike)
                have h3 := hst (some (!isLike)) hs
                rw [hs, h3] at h1 h2
                cases isLike <;> simp [specToggle] at h1 h2 ⊢ <;> omega
  · intro sessions users likes user r1 r2 r3 hid hnone hreq hp1 hp2 hp3
    obtain ⟨hm1, hu1, ht1⟩ := hreq r1 (by simp)
    obtain ⟨hm2, hu2, ht2⟩ := hreq r2 (by simp)
    obtain ⟨hm3, hu3, ht3⟩ := hreq r3 (by simp)
    have hall : ∀ x ∈ likes, targetMatch true 9 x = false := by
      intro x hx
      have := (List.filter_eq_nil_iff.mp hnone) x hx
      simpa using this
    have hs0 : pairRows likes true 3 9 = [] := by
      simp only [pairRows, List.map_eq_nil_iff, List.filter_eq_nil_iff]
      intro x hx hk
      have := likeKey_targetMatch hk
      rw [hall x hx] at this
      exact Bool.noConfusion this
    have hc0 : ∀ q, countOf likes true 9 q = 0 := by
      intro q
      rw [countOf_eq_countP, List.countP_eq_zero]
      intro x hx
      simp [hall x hx]
    obtain ⟨st1, b1⟩ := UpsertLike_noFault_step likes 3 9 true true none hs0
    obtain ⟨st2, b2⟩ := UpsertLike_noFault_step (UpsertLike noFault likes 3 9 true true).2
      3 9 false true (some true) st1
    obtain ⟨st3, b3⟩ := UpsertLike_noFault_step
      (UpsertLike noFault (UpsertLike noFault likes 3 9 true true).2 3 9 false true).2
      3 9 false true (some false) st2
    have b1t := b1 true
    have b1f := b1 false
    have b2t := b2 true
    have b2f := b2 false
    have b3t := b3 true
    have b3f := b3 false
    rw [hc0] at b1t b1f
    simp [specToggle] at b1t b1f b2t b2f b3t b3f
    rw [b1t] at b2t
    rw [b1f] at b2f
    simp at b2t
    rw [b2t] at b3t
    rw [b2f] at b3f
    simp at b3f
    refine ⟨(UpsertLike noFault likes 3 9 true true).2,
      (UpsertLike noFault (UpsertLike noFault likes 3 9 true true).2 3 9 false true).2,
      (UpsertLike noFault (UpsertLike noFault (UpsertLike noFault likes 3 9 true true).2
        3 9 false true).2 3 9 false true).2, ?_, ?_, ?_⟩
    all_goals unfold LikePostHandler
    · rw [likeHandler_noFault likes hm1 hu1 ht1 hp1, hid, b1t, b1f]
    · rw [likeHandler_noFault _ hm2 hu2 ht2 hp2, hid, b2t, b2f]
    · rw [likeHandler_noFault _ hm3 hu3 ht3 hp3, hid, b3t, b3f]
  · intro isPost fault sessions users likes likes1 r user targetID isLike hm hu ht hp hup h6
    have h6a : fault (0 + 6) = false := h6
    have hgo : likeHandler (if isPost then "post_id" else "comment_id") isPost fault sessions
        users likes r
        = (.json (countOf likes1 isPost targetID true) (countOf likes1 isPost targetID false),
            likes1) := by
      rw [likeHandler_of_user likes hm hu ht hp, hup]
      simp [GetLikeCounts, countOf, noFault, h6a]
    cases isPost
    · exact hgo
    · exact hgo
  · intro isPost sessions users likes r user targetID isLike hm hu ht hp
    refine ⟨UpsertLike_noFault_fst likes user.ID targetID isLike isPost, ?_⟩
    have hgo : likeHandler (if isPost then "post_id" else "comment_id") isPost noFault sessions
        users likes r = _ := likeHandler_noFault likes hm hu ht hp
    cases isPost
    · exact hgo
    · exact hgo

/-- Witness of C3: the session of actor 3 sends like, dislike, dislike on
post 9 to a table that holds one like on post 8; the first answer, (1,0), is the
counts of the table after the write. The same session sends a dislike on
comment 5 to a table that holds its like on comment 5 and a dislike of actor 4:
`LikeCommentHandler` answers (0,2) and leaves the table after the flip. -/
theorem like_handlers_return_counts_after_write_witness :
    (∃ (l1 l2 l3 : List LikeRow),
      LikePostHandler noFault [⟨some 3, "T", 1000, false, 0, 0⟩]
          [⟨3, "carol", "carol@example.org", "hash"⟩] [⟨4, some 8, none, true⟩]
          ⟨"POST", some "T", fun k => if k = "post_id" then "9" else "true"⟩
        = (.json 1 0, l1) ∧
      LikePostHandler noFault [⟨some 3, "T", 1000, false, 0, 0⟩]
          [⟨3, "carol", "carol@example.org", "hash"⟩] l1
          ⟨"POST", some "T", fun k => if k = "post_id" then "9" else "false"⟩
        = (.json 0 1, l2) ∧
      LikePostHandler noFault [⟨some 3, "T", 1000, false, 0, 0⟩]
          [⟨3, "carol", "carol@example.org", "hash"⟩] l2
          ⟨"POST", some "T", fun k => if k = "post_id" then "9" else "0"⟩
        = (.json 0 0, l3)) ∧
    (∃ (targetID : Int),
      1 = countOf [⟨4, some 8, none, true⟩, ⟨3, some 9, none, true⟩] true targetID true ∧
      0 = countOf [⟨4, some 8, none, true⟩, ⟨3, some 9, none, true⟩] true targetID false) ∧
    LikeCommentHandler noFault [⟨some 3, "T", 1000, false, 0, 0⟩]
        [⟨3, "carol", "carol@example.org", "hash"⟩]
        [⟨3, none, some 5, true⟩, ⟨4, none, some 5, false⟩]
        ⟨"POST", some "T", fun k => if k = "comment_id" then "5" else "false"⟩
      = (.json 0 2, [⟨3, none, some 5, false⟩, ⟨4, none, some 5, false⟩]) :=
  ⟨like_handlers_return_counts_after_write.2.1 [⟨some 3, "T", 1000, false, 0, 0⟩]
    [⟨3, "carol", "carol@example.org", "hash"⟩] [⟨4, some 8, none, true⟩]
    ⟨3, "carol", "carol@example.org", ""⟩
    ⟨"POST", some "T", fun k => if k = "post_id" then "9" else "true"⟩
    ⟨"POST", some "T", fun k => if k = "post_id" then "9" else "false"⟩
    ⟨"POST", some "T", fun k => if k = "post_id" then "9" else "0"⟩
    rfl (by decide)
    (by
      intro r hr
      simp only [List.mem_cons, List.mem_singleton, List.not_mem_nil, or_false] at hr
      rcases hr with h | h | h <;> subst h <;> decide)
    (by decide) (by decide) (by decide),
   match like_handlers_return_counts_after_write.1 true noFault
      [⟨some 3, "T", 1000, false, 0, 0⟩] [⟨3, "carol", "carol@example.org", "hash"⟩]
      [⟨4, some 8, none, true⟩] [⟨4, some 8, none, true⟩, ⟨3, some 9, none, true⟩]
      ⟨"POST", some "T", fun k => if k = "post_id" then "9" else "true"⟩ 1 0 (by decide) with
   | ⟨_, targetID, _, h⟩ => ⟨targetID, h.2.2.2.2.1, h.2.2.2.2.2.1⟩,
   like_handlers_return_counts_after_write.2.2.1 false noFault
      [⟨some 3, "T", 1000, false, 0, 0⟩] [⟨3, "carol", "carol@example.org", "hash"⟩]
      [⟨3, none, some 5, true⟩, ⟨4, none, some 5, false⟩]
      [⟨3, none, some 5, false⟩, ⟨4, none, some 5, false⟩]
      ⟨"POST", some "T", fun k => if k = "comment_id" then "5" else "false"⟩
      ⟨3, "carol", "carol@example.org", ""⟩ 5 false
      rfl (by decide) (by decide) (by decide) (by decide) rfl⟩

/-- C4: from a table in which the actor has no reaction on the target, two
consecutive successful `UpsertLike` calls with the same polarity leave zero rows
for the pair; the table is the one before the first call, so `GetLikeCounts`
returns what it returned before. -/
theorem UpsertLike_twice_from_none (f1 f2 g : Faults) (likes likes1 likes2 : List LikeRow)
    (userID targetID : Int) (p isPost : Bool)
    (h0 : pairRows likes isPost userID targetID = [])
    (h1 : UpsertLike f1 likes userID targetID p isPost = (none, likes1))
    (h2 : UpsertLike f2 likes1 userID targetID p isPost = (none, likes2)) :
    pairRows likes2 isPost userID targetID = [] ∧
    GetLikeCounts g likes2 targetID isPost = GetLikeCounts g likes targetID isPost ∧
    likes2 = likes := by
  have hnil : likes.filter (likeKey isPost userID targetID) = [] := by
    simpa [pairRows] using h0
  have hall : ∀ r ∈ likes, likeKey isPost userID targetID r = false := by
    intro r hr
    have := (List.filter_eq_nil_iff.mp hnil) r hr
    simpa using this
  replace h1 := UpsertLike_committed h1
  replace h2 := UpsertLike_committed h2
  rw [find?_of_pairRows_nil h0] at h1
  simp only at h1
  subst h1
  have hfind : (likes ++ [newLikeRow isPost userID targetID p]).find?
      (likeKey isPost userID targetID) = some (newLikeRow isPost userID targetID p) := by
    rw [List.find?_append, find?_of_pairRows_nil h0]
    simp [List.find?_cons, likeKey_newLikeRow]
  have hp : (newLikeRow isPost userID targetID p).is_like = p := by cases isPost <;> rfl
  rw [hfind] at h2
  simp only [hp, if_true] at h2
  have hback : deleteLike (likes ++ [newLikeRow isPost userID targetID p]) isPost userID targetID
      = likes := by
    simp only [deleteLike, List.filter_append, List.filter_cons, likeKey_newLikeRow,
      Bool.not_true, List.filter_nil, List.append_nil]
    simp only [Bool.false_eq_true, if_false, List.append_nil]
    rw [List.filter_eq_self]
    intro r hr
    simp [hall r hr]
  rw [hback] at h2
  subst h2
  exact ⟨h0, rfl, rfl⟩

/-- Witness of C4: actor 3 likes post 9 twice, next to a dislike of actor 4. -/
theorem UpsertLike_twice_from_none_witness :
    pairRows [(⟨4, some 9, none, false⟩ : LikeRow)] true 3 9 = [] ∧
    GetLikeCounts noFault [(⟨4, some 9, none, false⟩ : LikeRow)] 9 true
      = GetLikeCounts noFault [(⟨4, some 9, none, false⟩ : LikeRow)] 9 true ∧
    [(⟨4, some 9, none, false⟩ : LikeRow)] = [(⟨4, some 9, none, false⟩ : LikeRow)] :=
  UpsertLike_twice_from_none noFault noFault noFault [⟨4, some 9, none, false⟩]
    [⟨4, some 9, none, false⟩, ⟨3, some 9, none, true⟩] [⟨4, some 9, none, false⟩]
    3 9 true true (by decide) (by decide) (by decide)

/-- C5: the schema does not reject a second row for the same actor and target.
Every row of a post reaction (`comment_id` NULL) and every row of a comment
reaction (`post_id` NULL) passes `UNIQUE(user_id, post_id, comment_id)` on every
table, because a NULL key column is distinct from every value; so the direct
insert of a dislike of actor 3 on post 9 next to the like of actor 3 on post 9
succeeds and leaves two rows for the pair. -/
theorem insertLike_accepts_second_row :
    (∀ (likes : List LikeRow) (actor target : Int) (p : Bool),
      insertLike likes ⟨actor, some target, none, p⟩
        = .ok (likes ++ [⟨actor, some target, none, p⟩])) ∧
    (∀ (likes : List LikeRow) (actor target : Int) (p : Bool),
      insertLike likes ⟨actor, none, some target, p⟩
        = .ok (likes ++ [⟨actor, none, some target, p⟩])) ∧
    insertLike [⟨3, some 9, none, true⟩] ⟨3, some 9, none, false⟩
      = .ok [⟨3, some 9, none, true⟩, ⟨3, some 9, none, false⟩] ∧
    pairRows [⟨3, some 9, none, true⟩, ⟨3, some 9, none, false⟩] true 3 9 = [true, false] := by
  refine ⟨?_, ?_, ?_, by decide⟩
  · intro likes actor target p
    exact insertLike_newLikeRow likes true actor target p
  · intro likes actor target p
    exact insertLike_newLikeRow likes false actor target p
  · exact insertLike_newLikeRow [⟨3, some 9, none, true⟩] true 3 9 false

/-- C6: when its query runs, `GetLikeCounts` returns the number of rows of the
target with `is_like` true and the number with `is_like` false, and no error;
that is `(0, 0)` when the target has no row. Whether the query runs or fails, the
table after the call is the table before it. -/
theorem GetLikeCounts_counts (fault : Faults) (likes : List LikeRow) (targetID : Int)
    (isPost : Bool) :
    (fault 0 = false →
      (GetLikeCounts fault likes targetID isPost).1 =
        (likes.countP (fun r => targetMatch isPost targetID r && r.is_like),
         likes.countP (fun r => targetMatch isPost targetID r && !r.is_like), none) ∧
      (likes.filter (targetMatch isPost targetID) = [] →
        (GetLikeCounts fault likes targetID isPost).1 = (0, 0, none))) ∧
    (GetLikeCounts fault likes targetID isPost).2 = likes := by
  have hsum : ∀ (q : LikeRow → Bool) (l : List LikeRow),
      ((l.filter (targetMatch isPost targetID)).map (fun r => if q r = true then 1 else 0)).sum
        = l.countP (fun r => targetMatch isPost targetID r && q r) := by
    intro q l
    induction l with
    | nil => rfl
    | cons a t ih =>
      by_cases h1 : targetMatch isPost targetID a = true <;> by_cases h2 : q a = true <;>
        simp [List.filter_cons, List.countP_cons, h1, h2, ih, Nat.add_comm]
  have e1 := hsum (fun r => r.is_like) likes
  have e2 := hsum (fun r => !r.is_like) likes
  simp only [Bool.not_eq_true'] at e2
  refine ⟨fun hq => ⟨?_, ?_⟩, ?_⟩
  · simp only [GetLikeCounts, hq, Bool.false_eq_true, if_false]
    rw [e1, e2]
  · intro hnil
    simp [GetLikeCounts, hq, hnil]
  · unfold GetLikeCounts
    split <;> rfl

/-- Witness of C6: post 9 with two likes and one dislike, next to a row of
another post. -/
theorem GetLikeCounts_counts_witness :
    GetLikeCounts noFault
        [⟨1, some 9, none, true⟩, ⟨2, some 9, none, false⟩, ⟨3, some 9, none, true⟩,
          ⟨1, some 8, none, true⟩] 9 true
      = ((2, 1, none),
        [⟨1, some 9, none, true⟩, ⟨2, some 9, none, false⟩, ⟨3, some 9, none, true⟩,
          ⟨1, some 8, none, true⟩]) :=
  Prod.ext
    ((GetLikeCounts_counts noFault
      [⟨1, some 9, none, true⟩, ⟨2, some 9, none, false⟩, ⟨3, some 9, none, true⟩,
        ⟨1, some 8, none, true⟩] 9 true).1 rfl).1
    (GetLikeCounts_counts noFault
      [⟨1, some 9, none, true⟩, ⟨2, some 9, none, false⟩, ⟨3, some 9, none, true⟩,
        ⟨1, some 8, none, true⟩] 9 true).2

/-! ## Lemmas on the sessions table -/

/-- A committed `UpsertSession` for a user with a token that the table does not
hold: the sessions of that user are gone and the new session is appended. -/
theorem UpsertSession_user_committed {fault : Faults} {now : Int}
    {sessions sessions1 : List SessionRow} {u : Int} {t : String} {e : Int}
    (hfresh : ∀ s ∈ sessions, s.token ≠ t)
    (hok : UpsertSession fault now sessions (some u) t e false = (none, sessions1)) :
    sessions1 = sessions.filter (fun s => !decide (s.user_id = some u))
      ++ [⟨some u, t, e, false, now, now⟩] := by
  have hany : ¬ ∃ x ∈ sessions, ¬x.user_id = some u ∧ x.token = t := by
    rintro ⟨x, hx, _, hxt⟩
    exact hfresh x hx hxt
  unfold UpsertSession at hok
  cases h0 : fault 0 <;> cases h1 : fault 1 <;> cases h2 : fault 2 <;> cases h3 : fault 3 <;>
    simp [h0, h1, h2, h3] at hok
  rw [if_neg hany] at hok
  exact hok.symm

theorem scanSession_absent {sessions : List SessionRow} {t : String}
    (h : ∀ s ∈ sessions, s.token ≠ t) : scanSession sessions t = .error .noRows := by
  have hf : sessions.find? (fun s => decide (s.token = t)) = none := by
    rw [List.find?_eq_none]
    intro x hx
    simpa using h x hx
  simp [scanSession, hf]

theorem GetUserFromSession_absent (g : Faults) {sessions : List SessionRow}
    (users : List UserRow) {r : Request} {t : String} (hr : r.session_token = some t)
    (h : ∀ s ∈ sessions, s.token ≠ t) :
    (GetUserFromSession g sessions users r).1 = none ∧
    (g 0 = false → GetUserFromSession g sessions users r = (none, none)) := by
  unfold GetUserFromSession
  rw [hr]
  cases h0 : g 0 <;> simp [scanSession_absent h]

theorem find?_of_mem_pairwise {α β : Type} [DecidableEq β] (key : α → β) :
    ∀ (l : List α) (a : α), a ∈ l → l.Pairwise (fun x y => key x ≠ key y) →
      l.find? (fun x => decide (key x = key a)) = some a := by
  intro l
  induction l with
  | nil => intro a ha; simp at ha
  | cons b l ih =>
    intro a ha hp
    rw [List.pairwise_cons] at hp
    rw [List.find?_cons]
    rcases List.mem_cons.mp ha with hab | hal
    · subst hab; simp
    · have hne : key b ≠ key a := hp.1 a hal
      simp only [hne, decide_False]
      exact ih a hal hp.2

theorem scanSession_found {sessions : List SessionRow} {s : SessionRow}
    (hs : s ∈ sessions) (huniq : sessions.Pairwise (fun a b => a.token ≠ b.token)) :
    scanSession sessions s.token =
      match s.user_id with
      | none => .error .scan
      | some userID => .ok (userID, s.is_guest) := by
  simp only [scanSession, find?_of_mem_pairwise SessionRow.token sessions s hs huniq]

theorem scanSession_expiry_irrelevant (e : SessionRow → Int) (t : String) :
    ∀ (sessions : List SessionRow),
      scanSession (sessions.map (fun x => { x with expiry := e x })) t
        = scanSession sessions t := by
  intro sessions
  induction sessions with
  | nil => rfl
  | cons a l ih =>
    simp only [scanSession, List.map_cons, List.find?_cons] at ih ⊢
    by_cases h : a.token = t
    · simp [h]
    · simpa [h] using ih

theorem mem_of_mem_CleanupSessions {f : Faults} {zone : Int → Int} {now : Int}
    {sessions : List SessionRow} {x : SessionRow}
    (hx : x ∈ CleanupSessions f zone now sessions) : x ∈ sessions := by
  unfold CleanupSessions at hx
  split at hx
  · exact hx
  · exact List.mem_of_mem_filter hx

theorem token_absent_after_cleanup {f : Faults} {zone : Int → Int} {now : Int}
    {sessions : List SessionRow} {s : SessionRow} (hs : s ∈ sessions)
    (huniq : sessions.Pairwise (fun a b => a.token ≠ b.token))
    (hgone : s ∉ CleanupSessions f zone now sessions) :
    ∀ x ∈ CleanupSessions f zone now sessions, x.token ≠ s.token := by
  intro x hx hxt
  have hxs : x = s := by
    by_contra hne
    exact (huniq.forall (fun _ _ h => fun h2 => h h2.symm)
      (mem_of_mem_CleanupSessions hx) hs hne) hxt
  rw [hxs] at hx
  exact hgone hx

/-! ## Sessions: the claims -/

/-- C7: after a successful `UpsertSession(&u, t, e, false)` with a token that the
table did not hold, exactly one session has subject `u`: the one with token `t`
and expiry `e`. After a second such call with a token `t2`, the first token is
no session any more: `GetUserFromSession` with `t` yields no user, and reports
not-found when its query runs. -/
theorem UpsertSession_single_session (fault : Faults) (now : Int)
    (sessions sessions1 : List SessionRow) (u : Int) (t : String) (e : Int)
    (hfresh : ∀ s ∈ sessions, s.token ≠ t)
    (hok : UpsertSession fault now sessions (some u) t e false = (none, sessions1)) :
    sessions1.filter (fun s => decide (s.user_id = some u))
      = [⟨some u, t, e, false, now, now⟩] ∧
    (∀ (fault2 : Faults) (now2 : Int) (sessions2 : List SessionRow) (t2 : String) (e2 : Int)
      (g : Faults) (users : List UserRow) (r : Request),
      (∀ s ∈ sessions1, s.token ≠ t2) →
      UpsertSession fault2 now2 sessions1 (some u) t2 e2 false = (none, sessions2) →
      r.session_token = some t →
      sessions2.filter (fun s => decide (s.user_id = some u))
        = [⟨some u, t2, e2, false, now2, now2⟩] ∧
      (GetUserFromSession g sessions2 users r).1 = none ∧
      (g 0 = false → GetUserFromSession g sessions2 users r = (none, none))) := by
  have h1 := UpsertSession_user_committed hfresh hok
  have hfilter : ∀ (l : List SessionRow),
      (l.filter (fun s => !decide (s.user_id = some u))).filter
        (fun s => decide (s.user_id = some u)) = [] := by
    intro l
    rw [List.filter_filter, List.filter_eq_nil_iff]
    intro a _
    cases decide (a.user_id = some u) <;> simp
  constructor
  · rw [h1, List.filter_append, hfilter]
    simp
  · intro fault2 now2 sessions2 t2 e2 g users r hfresh2 hok2 hr
    have h2 := UpsertSession_user_committed hfresh2 hok2
    have ht2 : t ≠ t2 := by
      apply hfresh2 ⟨some u, t, e, false, now, now⟩
      rw [h1]
      simp
    refine ⟨?_, ?_⟩
    · rw [h2, List.filter_append, hfilter]
      simp
    · apply GetUserFromSession_absent g users hr
      intro s hs
      rw [h2, List.mem_append] at hs
      rcases hs with hs | hs
      · have hs1 := List.mem_of_mem_filter hs
        have hsu : s.user_id ≠ some u := by
          have := (List.mem_filter.mp hs).2
          simpa using this
        rw [h1, List.mem_append] at hs1
        rcases hs1 with hs1 | hs1
        · exact hfresh s (List.mem_of_mem_filter hs1)
        · simp only [List.mem_singleton] at hs1
          rw [hs1] at hsu
          exact absurd rfl hsu
      · simp only [List.mem_singleton] at hs
        rw [hs]
        exact fun h => ht2 h.symm

/-- Witness of C7: user 7 logs in with token "T1" next to a guest session. -/
theorem UpsertSession_single_session_witness :
    List.filter (fun s => decide (s.user_id = some 7))
        [(⟨none, "G", 50, true, 1, 1⟩ : SessionRow), ⟨some 7, "T1", 99, false, 5, 5⟩]
      = [⟨some 7, "T1", 99, false, 5, 5⟩] :=
  (UpsertSession_single_session noFault 5
    [⟨none, "G", 50, true, 1, 1⟩, ⟨some 7, "T0", 60, false, 2, 2⟩]
    [⟨none, "G", 50, true, 1, 1⟩, ⟨some 7, "T1", 99, false, 5, 5⟩] 7 "T1" 99
    (by decide) (by decide)).1

/-- C8, refuted as stated: the session of user 7 with token "T" expired at 100;
at time 200, before any sweep, `GetUserFromSession` returns user 7 and
`SessionMiddleware` passes the request on to the wrapped handler. -/
theorem expired_session_still_validates :
    (⟨some 7, "T", 100, false, 0, 0⟩ : SessionRow).expiry < 200 ∧
    GetUserFromSession noFault [⟨some 7, "T", 100, false, 0, 0⟩]
        [⟨7, "ann", "ann@example.org", "hash"⟩] ⟨"GET", some "T", fun _ => ""⟩
      = (some ⟨7, "ann", "ann@example.org", ""⟩, none) ∧
    (SessionMiddleware noFault 200 "fresh" [⟨some 7, "T", 100, false, 0, 0⟩]
        ⟨"GET", some "T", fun _ => ""⟩).outcome = MiddlewareOutcome.next := by
  decide

/-- C8, amended: validation does not read the expiry. For every stored session,
also one whose expiry is earlier than the current time, the existence check of
`SessionMiddleware` finds it and `GetUserFromSession` answers as it would for
any other expiry. Once `CleanupSessions` has removed the row of the session from
a table with unique tokens, the token is gone: `GetUserFromSession` yields no
user (not-found when its query runs) and `SessionMiddleware` redirects to the
login page. -/
theorem expired_session_invalid_after_cleanup (f g h : Faults) (zone : Int → Int) (now : Int)
    (uuid : String) (sessions : List SessionRow) (users : List UserRow) (s : SessionRow)
    (r : Request)
    (hs : s ∈ sessions) (hr : r.session_token = some s.token)
    (huniq : sessions.Pairwise (fun a b => a.token ≠ b.token))
    (hgone : s ∉ CleanupSessions f zone now sessions) :
    ((GetUserFromSession g (CleanupSessions f zone now sessions) users r).1 = none ∧
      (g 0 = false →
        GetUserFromSession g (CleanupSessions f zone now sessions) users r = (none, none)) ∧
      (SessionMiddleware h now uuid (CleanupSessions f zone now sessions) r).outcome
        = MiddlewareOutcome.redirectLogin) ∧
    (h 4 = false → (SessionMiddleware h now uuid sessions r).outcome = MiddlewareOutcome.next) ∧
    (∀ e : SessionRow → Int,
      GetUserFromSession g (sessions.map (fun x => { x with expiry := e x })) users r
        = GetUserFromSession g sessions users r) := by
  have habs := token_absent_after_cleanup hs huniq hgone
  refine ⟨⟨(GetUserFromSession_absent g users hr habs).1,
    (GetUserFromSession_absent g users hr habs).2, ?_⟩, ?_, ?_⟩
  · have hany : (CleanupSessions f zone now sessions).any
        (fun x => decide (x.token = s.token)) = false := by
      rw [Bool.eq_false_iff]
      intro hc
      rw [List.any_eq_true] at hc
      obtain ⟨x, hx, hxt⟩ := hc
      exact habs x hx (by simpa using hxt)
    unfold SessionMiddleware
    rw [hr]
    cases h4 : h 4 <;> simp [hany]
  · intro h4
    have hany : sessions.any (fun x => decide (x.token = s.token)) = true := by
      rw [List.any_eq_true]
      exact ⟨s, hs, by simp⟩
    unfold SessionMiddleware
    rw [hr]
    simp [h4, hany]
  · intro e
    unfold GetUserFromSession
    rw [hr]
    simp only [scanSession_expiry_irrelevant]

/-- Witness of C8 amended: the session of user 7 expired at time 100; the sweep at
time 200 of a server in UTC removes it. -/
theorem expired_session_invalid_after_cleanup_witness :
    (SessionMiddleware noFault 200 "fresh"
        (CleanupSessions noFault (fun _ => 0) 200 [⟨some 7, "T", 100, false, 0, 0⟩])
        ⟨"GET", some "T", fun _ => ""⟩).outcome = MiddlewareOutcome.redirectLogin :=
  (expired_session_invalid_after_cleanup noFault noFault noFault (fun _ => 0) 200 "fresh"
    [⟨some 7, "T", 100, false, 0, 0⟩] [⟨7, "ann", "ann@example.org", "hash"⟩]
    ⟨some 7, "T", 100, false, 0, 0⟩ ⟨"GET", some "T", fun _ => ""⟩
    (by decide) rfl (by simp) (by decide)).1.2.2

/-- C9: for a user `usr` of the users table (ids being unique) and a token that
the sessions table did not hold, after a successful
`UpsertSession(&usr.id, t, now + 24h, false)` a request carrying the cookie `t`
makes `GetUserFromSession`, when its two queries run, return the user with the
id, username and email of the users row, and no error. -/
theorem GetUserFromSession_after_login (fault g : Faults) (now : Int)
    (sessions sessions1 : List SessionRow) (users : List UserRow) (usr : UserRow)
    (t : String) (r : Request)
    (husr : usr ∈ users) (hids : users.Pairwise (fun a b => a.id ≠ b.id))
    (hfresh : ∀ s ∈ sessions, s.token ≠ t)
    (hok : UpsertSession fault now sessions (some usr.id) t (now + 24 * Hour) false
      = (none, sessions1))
    (hr : r.session_token = some t) (hg0 : g 0 = false) (hg1 : g 1 = false) :
    GetUserFromSession g sessions1 users r
      = (some ⟨usr.id, usr.username, usr.email, ""⟩, none) := by
  have h1 := UpsertSession_user_committed hfresh hok
  have hfind : sessions1.find? (fun s => decide (s.token = t))
      = some ⟨some usr.id, t, now + 24 * Hour, false, now, now⟩ := by
    have hnone : (sessions.filter (fun s => !decide (s.user_id = some usr.id))).find?
        (fun s => decide (s.token = t)) = none := by
      rw [List.find?_eq_none]
      intro x hx
      simpa using hfresh x (List.mem_of_mem_filter hx)
    rw [h1, List.find?_append, hnone]
    simp
  have hu := find?_of_mem_pairwise UserRow.id users usr husr hids
  have hg1b : g (0 + 1) = false := by simpa using hg1
  simp [GetUserFromSession, hr, hg0, scanSession, hfind, GetUserByID, hg1b, hu]

/-- Witness of C9: user 7 logs in at time 1000 with token "T2". -/
theorem GetUserFromSession_after_login_witness :
    GetUserFromSession noFault
        [⟨none, "G", 50, true, 1, 1⟩, ⟨some 7, "T2", 1000 + 24 * Hour, false, 1000, 1000⟩]
        [⟨6, "bob", "bob@example.org", "h6"⟩, ⟨7, "ann", "ann@example.org", "h7"⟩]
        ⟨"GET", some "T2", fun _ => ""⟩
      = (some ⟨7, "ann", "ann@example.org", ""⟩, none) :=
  GetUserFromSession_after_login noFault noFault 1000
    [⟨none, "G", 50, true, 1, 1⟩, ⟨some 7, "T1", 60, false, 2, 2⟩]
    [⟨none, "G", 50, true, 1, 1⟩, ⟨some 7, "T2", 1000 + 24 * Hour, false, 1000, 1000⟩]
    [⟨6, "bob", "bob@example.org", "h6"⟩, ⟨7, "ann", "ann@example.org", "h7"⟩]
    ⟨7, "ann", "ann@example.org", "h7"⟩ "T2" ⟨"GET", some "T2", fun _ => ""⟩
    (by decide) (by simp) (by decide) (by decide) rfl rfl rfl

/-- C10: on a stored Guest session `GetUserFromSession` does not reach its guest
branch. The row has a NULL `user_id`, the scan into `userID int` fails, and the
function returns the scan error: for every table whose first row for the token
is a Guest row, and in particular for the Guest session that `SessionMiddleware`
itself writes for a request without a cookie. -/
theorem GetUserFromSession_guest_session_errors :
    (∀ (rest : List SessionRow) (users : List UserRow) (tok method : String)
      (expiry lastActivity createdAt : Int) (form : String → String),
      GetUserFromSession noFault (⟨none, tok, expiry, true, lastActivity, createdAt⟩ :: rest)
          users ⟨method, some tok, form⟩ = (none, some Err.scan)) ∧
    (SessionMiddleware noFault 1000 "g-1" [] ⟨"GET", none, fun _ => ""⟩).sessions
      = [⟨none, "g-1", 1000 + 24 * Hour, true, 1000, 1000⟩] ∧
    GetUserFromSession noFault
        (SessionMiddleware noFault 1000 "g-1" [] ⟨"GET", none, fun _ => ""⟩).sessions
        [] ⟨"GET", some "g-1", fun _ => ""⟩ = (none, some Err.scan) := by
  refine ⟨?_, by decide, by decide⟩
  intro rest users tok method expiry lastActivity createdAt form
  simp [GetUserFromSession, noFault, scanSession]

/-! ## Sessions: further lemmas -/

/-- The two outcomes of `UpsertSession`: a storage fault with the table as it
was, or the committed delete-then-upsert. -/
theorem UpsertSession_cases (fault : Faults) (now : Int) (sessions : List SessionRow)
    (userID : Option Int) (token : String) (expiry : Int) (isGuest : Bool) :
    UpsertSession fault now sessions userID token expiry isGuest
        = (some Err.storage, sessions) ∨
    UpsertSession fault now sessions userID token expiry isGuest
        = (none, upsertSessionRow now (sessionsAfterDelete sessions userID isGuest)
            userID token expiry isGuest) := by
  unfold UpsertSession upsertSessionRow sessionsAfterDelete
  cases userID <;> cases isGuest <;>
    cases h0 : fault 0 <;> cases h1 : fault 1 <;> cases h2 : fault 2 <;> cases h3 : fault 3 <;>
    simp

theorem UpsertSession_noFault (now : Int) (sessions : List SessionRow)
    (userID : Option Int) (token : String) (expiry : Int) (isGuest : Bool) :
    UpsertSession noFault now sessions userID token expiry isGuest
        = (none, upsertSessionRow now (sessionsAfterDelete sessions userID isGuest)
            userID token expiry isGuest) := by
  unfold UpsertSession upsertSessionRow sessionsAfterDelete
  cases userID <;> cases isGuest <;> simp [noFault]

theorem upsertSessionRow_fresh {now : Int} {tx : List SessionRow} {userID : Option Int}
    {token : String} {expiry : Int} {isGuest : Bool} (hfresh : ∀ s ∈ tx, s.token ≠ token) :
    upsertSessionRow now tx userID token expiry isGuest
      = tx ++ [⟨userID, token, expiry, isGuest, now, now⟩] := by
  have hany : ¬ ∃ x ∈ tx, x.token = token := by
    rintro ⟨x, hx, hxt⟩
    exact hfresh x hx hxt
  simp [upsertSessionRow, hany]

theorem mem_sessionsAfterDelete {sessions : List SessionRow} {userID : Option Int}
    {isGuest : Bool} {s : SessionRow} (h : s ∈ sessionsAfterDelete sessions userID isGuest) :
    s ∈ sessions := by
  unfold sessionsAfterDelete at h
  cases userID with
  | none => exact h
  | some uid =>
    cases isGuest
    · exact List.mem_of_mem_filter h
    · exact h

/-! ## Sessions: lookup misses, faults, sweep and revocation -/

/-- C11: a request without the session cookie, and a request whose token has no
row in the sessions table (the session query runs and finds nothing), make
`GetUserFromSession` return no user and no error. -/
theorem GetUserFromSession_miss_is_no_error (fault : Faults) (sessions : List SessionRow)
    (users : List UserRow) (r : Request) :
    (r.session_token = none → GetUserFromSession fault sessions users r = (none, none)) ∧
    (∀ t, r.session_token = some t → (∀ s ∈ sessions, s.token ≠ t) → fault 0 = false →
      GetUserFromSession fault sessions users r = (none, none)) := by
  constructor
  · intro hr
    simp [GetUserFromSession, hr]
  · intro t hr habs hq
    exact (GetUserFromSession_absent fault users hr habs).2 hq

/-- Witness of C11: the token "gone" against a table that holds only "T". -/
theorem GetUserFromSession_miss_is_no_error_witness :
    GetUserFromSession noFault [⟨some 7, "T", 100, false, 0, 0⟩]
        [⟨7, "ann", "ann@example.org", "hash"⟩] ⟨"GET", some "gone", fun _ => ""⟩
      = (none, none) :=
  (GetUserFromSession_miss_is_no_error noFault [⟨some 7, "T", 100, false, 0, 0⟩]
    [⟨7, "ann", "ann@example.org", "hash"⟩] ⟨"GET", some "gone", fun _ => ""⟩).2
    "gone" rfl (by decide) rfl

/-- C12: `GetUserFromSession` fails closed. It never returns a user together with
an error. When the session query fails with an error other than no-rows (a
storage fault, or a scan error), the result is that error and no user; when the
session query found an authenticated session and the user query fails with an
error other than no-rows, the result is that error and no user. -/
theorem GetUserFromSession_fails_closed (fault : Faults) (sessions : List SessionRow)
    (users : List UserRow) (r : Request) :
    ((GetUserFromSession fault sessions users r).1 = none ∨
      (GetUserFromSession fault sessions users r).2 = none) ∧
    (∀ t e, r.session_token = some t →
      (if fault 0 then Except.error Err.storage else scanSession sessions t) = .error e →
      e ≠ Err.noRows →
      GetUserFromSession fault sessions users r = (none, some e)) ∧
    (∀ t userID e, r.session_token = some t →
      (if fault 0 then Except.error Err.storage else scanSession sessions t)
        = .ok (userID, false) →
      GetUserByID (fun i => fault (i + 1)) users userID = .error e →
      e ≠ Err.noRows →
      GetUserFromSession fault sessions users r = (none, some e)) ∧
    (∀ t, r.session_token = some t → fault 0 = true →
      GetUserFromSession fault sessions users r = (none, some Err.storage)) ∧
    (∀ t userID, r.session_token = some t → fault 0 = false →
      scanSession sessions t = .ok (userID, false) → fault 1 = true →
      GetUserFromSession fault sessions users r = (none, some Err.storage)) := by
  refine ⟨?_, ?_, ?_, ?_, ?_⟩
  · unfold GetUserFromSession
    cases r.session_token with
    | none => exact Or.inl rfl
    | some t =>
      simp only
      rcases hq : (if fault 0 then Except.error Err.storage else scanSession sessions t)
        with e | ⟨userID, isGuest⟩
      · cases e <;> simp
      · cases isGuest
        · simp only [Bool.false_eq_true, if_false]
          rcases hu : GetUserByID (fun i => fault (i + 1)) users userID with e | user
          · cases e <;> simp
          · simp
        · simp
  · intro t e hr hq hne
    unfold GetUserFromSession
    rw [hr]
    simp only
    rw [hq]
    cases e <;> simp_all
  · intro t userID e hr hq hu hne
    unfold GetUserFromSession
    rw [hr]
    simp only
    rw [hq]
    simp only [Bool.false_eq_true, if_false]
    rw [hu]
    cases e <;> simp_all
  · intro t hr hf
    simp [GetUserFromSession, hr, hf]
  · intro t userID hr hf hs hf1
    have hf1b : fault (0 + 1) = true := by simpa using hf1
    simp [GetUserFromSession, hr, hf, hs, GetUserByID, hf1b]

/-- Witness of C12: the session of user 7 is found and the user query fails. -/
theorem GetUserFromSession_fails_closed_witness :
    GetUserFromSession (fun i => decide (i = 1)) [⟨some 7, "T", 100, false, 0, 0⟩]
        [⟨7, "ann", "ann@example.org", "hash"⟩] ⟨"GET", some "T", fun _ => ""⟩
      = (none, some Err.storage) :=
  (GetUserFromSession_fails_closed (fun i => decide (i = 1))
    [⟨some 7, "T", 100, false, 0, 0⟩] [⟨7, "ann", "ann@example.org", "hash"⟩]
    ⟨"GET", some "T", fun _ => ""⟩).2.2.2.2 "T" 7 rfl rfl rfl rfl

/-- C13: `CleanupSessions` compares the stored texts of the two times and not the
instants. With the server in Central European time, at 27 October 2024,
01:00:00 UTC, the text of the clock is "2024-10-27 02:00:00+01:00"; a session
that expired one second before has the text "2024-10-27 02:59:59+02:00", which
comes after it, and the sweep keeps the expired session. At 00:30:00 UTC of
that day the text of the clock is "2024-10-27 02:30:00+02:00"; a session that
expires one hour later has the text "2024-10-27 02:30:00+01:00", which comes
before it, and the sweep deletes the live session. With a server in UTC the
sweep at time 5000 seconds removes the first and keeps the second. -/
theorem CleanupSessions_compares_texts :
    sqliteTimestamp (centralEurope2024 1729990800000000000) 1729990800000000000
      = "2024-10-27 02:00:00+01:00" ∧
    sqliteTimestamp (centralEurope2024 (1729990800000000000 - Second))
        (1729990800000000000 - Second) = "2024-10-27 02:59:59+02:00" ∧
    CleanupSessions noFault centralEurope2024 1729990800000000000
        [⟨some 7, "old", 1729990800000000000 - Second, false, 0, 0⟩]
      = [⟨some 7, "old", 1729990800000000000 - Second, false, 0, 0⟩] ∧
    sqliteTimestamp (centralEurope2024 1729989000000000000) 1729989000000000000
      = "2024-10-27 02:30:00+02:00" ∧
    sqliteTimestamp (centralEurope2024 (1729989000000000000 + Hour))
        (1729989000000000000 + Hour) = "2024-10-27 02:30:00+01:00" ∧
    CleanupSessions noFault centralEurope2024 1729989000000000000
        [⟨none, "new", 1729989000000000000 + Hour, true, 0, 0⟩] = [] ∧
    CleanupSessions noFault (fun _ => 0) 5000000000000
        [⟨some 7, "old", 5000000000000 - Second, false, 0, 0⟩,
         ⟨none, "new", 5000000000000 + Hour, true, 0, 0⟩]
      = [⟨none, "new", 5000000000000 + Hour, true, 0, 0⟩] := by
  decide

/-- C14: when its DELETE runs, `DeleteSession(t)` returns no error and leaves the
sessions whose token is not `t`, in their order, so no session with token `t`
remains and every other session is as it was. When `t` is absent the table is
unchanged. A second `DeleteSession(t)`, whether it runs or fails, leaves the
table that the first one left. -/
theorem DeleteSession_revokes (fault fault2 : Faults) (sessions : List SessionRow)
    (t : String) (hrun : fault 0 = false) :
    (DeleteSession fault sessions t).1 = none ∧
    (DeleteSession fault sessions t).2 = sessions.filter (fun s => decide (s.token ≠ t)) ∧
    (∀ s ∈ (DeleteSession fault sessions t).2, s.token ≠ t) ∧
    (∀ s ∈ sessions, s.token ≠ t → s ∈ (DeleteSession fault sessions t).2) ∧
    ((∀ s ∈ sessions, s.token ≠ t) → DeleteSession fault sessions t = (none, sessions)) ∧
    (DeleteSession fault2 (DeleteSession fault sessions t).2 t).2
      = (DeleteSession fault sessions t).2 := by
  have hpred : (fun s : SessionRow => !decide (s.token = t))
      = (fun s : SessionRow => decide (s.token ≠ t)) := by
    funext s
    simp
  have h2 : (DeleteSession fault sessions t).2
      = sessions.filter (fun s => decide (s.token ≠ t)) := by
    simp only [DeleteSession, hrun, Bool.false_eq_true, if_false, hpred]
  refine ⟨by simp [DeleteSession, hrun], h2, ?_, ?_, ?_, ?_⟩
  · intro s hs
    rw [h2, List.mem_filter] at hs
    simpa using hs.2
  · intro s hs hne
    rw [h2, List.mem_filter]
    exact ⟨hs, by simpa using hne⟩
  · intro habs
    have hself : sessions.filter (fun s => decide (s.token ≠ t)) = sessions := by
      rw [List.filter_eq_self]
      intro s hs
      simpa using habs s hs
    rw [← hself]
    simp only [DeleteSession, hrun, Bool.false_eq_true, if_false, hpred, List.filter_filter,
      Bool.and_self]
  · rw [h2]
    unfold DeleteSession
    split
    · rfl
    · simp only [hpred, List.filter_filter, Bool.and_self]

/-- Witness of C14: revoking "T" from a table that holds "T" and "G". -/
theorem DeleteSession_revokes_witness :
    (DeleteSession noFault [⟨some 7, "T", 100, false, 0, 0⟩, ⟨none, "G", 50, true, 1, 1⟩]
        "T").2
      = List.filter (fun s => decide (s.token ≠ "T"))
        [⟨some 7, "T", 100, false, 0, 0⟩, ⟨none, "G", 50, true, 1, 1⟩] ∧
    (DeleteSession noFault [⟨some 7, "T", 100, false, 0, 0⟩, ⟨none, "G", 50, true, 1, 1⟩]
        "T").2 = [⟨none, "G", 50, true, 1, 1⟩] :=
  ⟨(DeleteSession_revokes noFault noFault
    [⟨some 7, "T", 100, false, 0, 0⟩, ⟨none, "G", 50, true, 1, 1⟩] "T" rfl).2.1, by decide⟩

/-! ## Sessions: creation, frame, atomicity and invariants -/

theorem upsertSessionRow_token_pairwise (now : Int) {tx : List SessionRow}
    (userID : Option Int) (token : String) (expiry : Int) (isGuest : Bool)
    (h : tx.Pairwise (fun a b => a.token ≠ b.token)) :
    (upsertSessionRow now tx userID token expiry isGuest).Pairwise
      (fun a b => a.token ≠ b.token) := by
  unfold upsertSessionRow
  split
  · rw [List.pairwise_map]
    refine h.imp ?_
    intro a b hab
    have fa : ∀ x : SessionRow,
        (if x.token = token then
          { x with user_id := userID, expiry := expiry, is_guest := isGuest,
                   last_activity := now }
        else x).token = x.token := by
      intro x
      split <;> rfl
    rw [fa a, fa b]
    exact hab
  · rename_i hany
    rw [List.pairwise_append]
    refine ⟨h, List.pairwise_singleton _ _, ?_⟩
    intro a ha b hb
    simp only [List.mem_singleton] at hb
    rw [hb]
    intro hat
    apply hany
    rw [List.any_eq_true]
    exact ⟨a, ha, by simpa using hat⟩

theorem upsertSessionRow_has_token (now : Int) (tx : List SessionRow)
    (userID : Option Int) (token : String) (expiry : Int) (isGuest : Bool) :
    ∃ s ∈ upsertSessionRow now tx userID token expiry isGuest, s.token = token := by
  unfold upsertSessionRow
  split
  · rename_i hany
    rw [List.any_eq_true] at hany
    obtain ⟨x, hx, hxt⟩ := hany
    have hxt2 : x.token = token := by simpa using hxt
    refine ⟨_, List.mem_map_of_mem _ hx, ?_⟩
    simp [hxt2]
  · exact ⟨⟨userID, token, expiry, isGuest, now, now⟩, by simp, rfl⟩

/-- Rows that the upsert statement writes carry the subject and kind given. -/
theorem upsertSessionRow_written {now : Int} {tx : List SessionRow}
    {userID : Option Int} {token : String} {expiry : Int} {isGuest : Bool} {s : SessionRow}
    (hs : s ∈ upsertSessionRow now tx userID token expiry isGuest) (ht : s.token = token) :
    s.user_id = userID ∧ s.is_guest = isGuest ∧ s.expiry = expiry ∧ s.last_activity = now := by
  unfold upsertSessionRow at hs
  split at hs
  · rw [List.mem_map] at hs
    obtain ⟨x, _, hxs⟩ := hs
    by_cases hx : x.token = token
    · simp only [hx, if_true] at hxs
      rw [← hxs]
      exact ⟨rfl, rfl, rfl, rfl⟩
    · simp only [hx, if_false] at hxs
      rw [hxs] at hx
      exact absurd ht hx
  · rename_i hany
    rw [List.mem_append] at hs
    rcases hs with hs | hs
    · exfalso
      apply hany
      rw [List.any_eq_true]
      exact ⟨s, hs, by simpa using ht⟩
    · simp only [List.mem_singleton] at hs
      rw [hs]
      exact ⟨rfl, rfl, rfl, rfl⟩

/-- Rows of another token pass through the upsert statement as they are. -/
theorem upsertSessionRow_other {now : Int} {tx : List SessionRow}
    {userID : Option Int} {token : String} {expiry : Int} {isGuest : Bool} {s : SessionRow}
    (hs : s ∈ upsertSessionRow now tx userID token expiry isGuest) (ht : s.token ≠ token) :
    s ∈ tx := by
  unfold upsertSessionRow at hs
  split at hs
  · rw [List.mem_map] at hs
    obtain ⟨x, hx, hxs⟩ := hs
    by_cases hxt : x.token = token
    · simp only [hxt, if_true] at hxs
      rw [← hxs] at ht
      exact absurd rfl ht
    · simp only [hxt, if_false] at hxs
      rw [← hxs]
      exact hx
  · rw [List.mem_append] at hs
    rcases hs with hs | hs
    · exact hs
    · simp only [List.mem_singleton] at hs
      rw [hs] at ht
      exact absurd rfl ht

theorem filter_token_length_one {l : List SessionRow} {t : String}
    (hp : l.Pairwise (fun a b => a.token ≠ b.token)) (hex : ∃ s ∈ l, s.token = t) :
    (l.filter (fun s => decide (s.token = t))).length = 1 := by
  induction l with
  | nil => obtain ⟨s, hs, _⟩ := hex; simp at hs
  | cons a l ih =>
    rw [List.pairwise_cons] at hp
    by_cases ha : a.token = t
    · have hnil : l.filter (fun s => decide (s.token = t)) = [] := by
        rw [List.filter_eq_nil_iff]
        intro x hx
        have := hp.1 x hx
        rw [ha] at this
        simpa using fun h : x.token = t => this h.symm
      simp [List.filter_cons, ha, hnil]
    · have hex2 : ∃ s ∈ l, s.token = t := by
        obtain ⟨s, hs, hst⟩ := hex
        rcases List.mem_cons.mp hs with h | h
        · rw [h] at hst; exact absurd hst ha
        · exact ⟨s, h, hst⟩
      simp [List.filter_cons, ha, ih hp.2 hex2]

theorem sessionsAfterDelete_pairwise {sessions : List SessionRow} (userID : Option Int)
    (isGuest : Bool) (h : sessions.Pairwise (fun a b => a.token ≠ b.token)) :
    (sessionsAfterDelete sessions userID isGuest).Pairwise (fun a b => a.token ≠ b.token) := by
  unfold sessionsAfterDelete
  cases userID with
  | none => exact h
  | some uid =>
    cases isGuest
    · exact h.sublist (List.filter_sublist _)
    · exact h

/-- C15: for a request without the session cookie, when the guest insert commits
and the generated token is not yet in the table, `SessionMiddleware` adds
exactly one session, the Guest session with no subject, the generated token and
expiry `now + 24h`, sets the cookie `session_token` with that token and that
expiry, and calls the wrapped handler. -/
theorem SessionMiddleware_creates_guest (fault : Faults) (now : Int) (uuid : String)
    (sessions : List SessionRow) (r : Request)
    (hr : r.session_token = none) (hfresh : ∀ s ∈ sessions, s.token ≠ uuid)
    (hok : (UpsertSession fault now sessions none uuid (now + 24 * Hour) true).1 = none) :
    SessionMiddleware fault now uuid sessions r =
      ⟨sessions ++ [⟨none, uuid, now + 24 * Hour, true, now, now⟩],
        some ⟨"session_token", uuid, now + 24 * Hour⟩, MiddlewareOutcome.next⟩ := by
  have htab : (UpsertSession fault now sessions none uuid (now + 24 * Hour) true).2
      = sessions ++ [⟨none, uuid, now + 24 * Hour, true, now, now⟩] := by
    rcases UpsertSession_cases fault now sessions none uuid (now + 24 * Hour) true with h | h
    · rw [h] at hok
      simp at hok
    · rw [h]
      exact upsertSessionRow_fresh hfresh
  simp only [SessionMiddleware, hr, generateSessionToken, htab]

/-- Witness of C15: a first visit at time 1000 next to the session of user 7. -/
theorem SessionMiddleware_creates_guest_witness :
    SessionMiddleware noFault 1000 "g-1" [⟨some 7, "T", 100, false, 0, 0⟩]
        ⟨"GET", none, fun _ => ""⟩ =
      ⟨[⟨some 7, "T", 100, false, 0, 0⟩] ++ [⟨none, "g-1", 1000 + 24 * Hour, true, 1000, 1000⟩],
        some ⟨"session_token", "g-1", 1000 + 24 * Hour⟩, MiddlewareOutcome.next⟩ :=
  SessionMiddleware_creates_guest noFault 1000 "g-1" [⟨some 7, "T", 100, false, 0, 0⟩]
    ⟨"GET", none, fun _ => ""⟩ rfl (by decide) (by decide)

/-- C16: with a token that the table does not hold, `UpsertSession(&u, t, e, false)`
leaves the sessions that are not bound to `u` (the Guest sessions without subject
and the sessions of other users) exactly as they were, whether it commits or
fails; and `UpsertSession(nil, t, e, true)` deletes no session: the table
afterwards is the table before, or the table before followed by the new Guest
session. -/
theorem UpsertSession_frame (fault : Faults) (now : Int) (sessions : List SessionRow)
    (u : Int) (t : String) (e : Int) (hfresh : ∀ s ∈ sessions, s.token ≠ t) :
    (UpsertSession fault now sessions (some u) t e false).2.filter
        (fun s => decide (s.user_id ≠ some u))
      = sessions.filter (fun s => decide (s.user_id ≠ some u)) ∧
    (∀ s ∈ sessions, s.user_id ≠ some u →
      s ∈ (UpsertSession fault now sessions (some u) t e false).2) ∧
    ((UpsertSession fault now sessions none t e true).2 = sessions ∨
      (UpsertSession fault now sessions none t e true).2
        = sessions ++ [⟨none, t, e, true, now, now⟩]) := by
  have hpred : (fun s : SessionRow => !decide (s.user_id = some u))
      = (fun s : SessionRow => decide (s.user_id ≠ some u)) := by
    funext s
    simp
  have h1 : (UpsertSession fault now sessions (some u) t e false).2.filter
        (fun s => decide (s.user_id ≠ some u))
      = sessions.filter (fun s => decide (s.user_id ≠ some u)) := by
    rcases UpsertSession_cases fault now sessions (some u) t e false with h | h
    · rw [h]
    · rw [h]
      have hfresh2 : ∀ s ∈ sessionsAfterDelete sessions (some u) false, s.token ≠ t :=
        fun s hs => hfresh s (mem_sessionsAfterDelete hs)
      rw [upsertSessionRow_fresh hfresh2]
      simp only [sessionsAfterDelete, Bool.not_false, if_true, hpred, List.filter_append,
        List.filter_filter, Bool.and_self]
      simp
  refine ⟨h1, ?_, ?_⟩
  · intro s hs hne
    have hin : s ∈ sessions.filter (fun s => decide (s.user_id ≠ some u)) := by
      rw [List.mem_filter]
      exact ⟨hs, by simpa using hne⟩
    rw [← h1] at hin
    exact List.mem_of_mem_filter hin
  · rcases UpsertSession_cases fault now sessions none t e true with h | h
    · exact Or.inl (by rw [h])
    · refine Or.inr ?_
      rw [h]
      exact upsertSessionRow_fresh hfresh

/-- Witness of C16: user 7 logs in with "T2" next to a Guest session and a
session of user 8. -/
theorem UpsertSession_frame_witness :
    List.filter (fun s => decide (s.user_id ≠ some 7))
        (UpsertSession noFault 5
          [⟨none, "G", 50, true, 1, 1⟩, ⟨some 7, "T1", 60, false, 2, 2⟩,
            ⟨some 8, "U", 70, false, 3, 3⟩] (some 7) "T2" 99 false).2
      = List.filter (fun s => decide (s.user_id ≠ some 7))
        [⟨none, "G", 50, true, 1, 1⟩, ⟨some 7, "T1", 60, false, 2, 2⟩,
          ⟨some 8, "U", 70, false, 3, 3⟩] :=
  (UpsertSession_frame noFault 5
    [⟨none, "G", 50, true, 1, 1⟩, ⟨some 7, "T1", 60, false, 2, 2⟩,
      ⟨some 8, "U", 70, false, 3, 3⟩] 7 "T2" 99 (by decide)).1

/-- C17: `UpsertSession` is atomic. Whenever it returns an error the sessions table
is the table before the call, so every previous session is still present; in
particular when the DELETE of the subject's sessions has run and the INSERT
fails, the call returns the storage error and the table is as before. -/
theorem UpsertSession_atomic (fault : Faults) (now : Int) (sessions : List SessionRow)
    (userID : Option Int) (token : String) (expiry : Int) (isGuest : Bool) :
    ((UpsertSession fault now sessions userID token expiry isGuest).1 ≠ none →
      (UpsertSession fault now sessions userID token expiry isGuest).2 = sessions) ∧
    (fault 0 = false → fault 1 = false → fault 2 = true →
      UpsertSession fault now sessions userID token expiry isGuest
        = (some Err.storage, sessions)) := by
  constructor
  · intro herr
    rcases UpsertSession_cases fault now sessions userID token expiry isGuest with h | h
    · rw [h]
    · rw [h] at herr
      exact absurd rfl herr
  · intro h0 h1 h2
    unfold UpsertSession
    cases userID <;> cases isGuest <;> simp [h0, h1, h2]

/-- Witness of C17: user 7 logs in, the DELETE runs and the INSERT fails; the old
session "T1" is still in the table. -/
theorem UpsertSession_atomic_witness :
    UpsertSession (fun i => decide (i = 2)) 5
        [⟨none, "G", 50, true, 1, 1⟩, ⟨some 7, "T1", 60, false, 2, 2⟩] (some 7) "T2" 99 false
      = (some Err.storage, [⟨none, "G", 50, true, 1, 1⟩, ⟨some 7, "T1", 60, false, 2, 2⟩]) :=
  (UpsertSession_atomic (fun i => decide (i = 2)) 5
    [⟨none, "G", 50, true, 1, 1⟩, ⟨some 7, "T1", 60, false, 2, 2⟩] (some 7) "T2" 99 false).2
    rfl rfl rfl

/-- C18, refuted as stated: `UpsertSession` stores the subject and the kind it is
given. Called with no subject and `isGuest = false` it writes a row that is not
a Guest row and has no subject; called with subject 7 and `isGuest = true` it
writes a Guest row with a subject. -/
theorem UpsertSession_writes_mixed_kind :
    UpsertSession noFault 0 [] none "t" 10 false = (none, [⟨none, "t", 10, false, 0, 0⟩]) ∧
    UpsertSession noFault 0 [] (some 7) "t" 10 true
      = (none, [⟨some 7, "t", 10, true, 0, 0⟩]) ∧
    ¬ (∀ s ∈ (UpsertSession noFault 0 [] none "t" 10 false).2,
        (s.is_guest = true ↔ s.user_id = none)) := by
  decide

/-- C18, amended: for the arguments with `isGuest` set exactly when `userID` is
nil, the row that a committed `UpsertSession` writes for its token is a Guest row
if and only if it has no subject; and if every session of the table satisfies
this before the call, every session satisfies it after the call. -/
theorem UpsertSession_kind_invariant (fault : Faults) (now : Int) (sessions : List SessionRow)
    (userID : Option Int) (token : String) (expiry : Int) (isGuest : Bool)
    (hargs : isGuest = userID.isNone) :
    ((UpsertSession fault now sessions userID token expiry isGuest).1 = none →
      ∀ s ∈ (UpsertSession fault now sessions userID token expiry isGuest).2,
        s.token = token → (s.is_guest = true ↔ s.user_id = none)) ∧
    ((∀ s ∈ sessions, (s.is_guest = true ↔ s.user_id = none)) →
      ∀ s ∈ (UpsertSession fault now sessions userID token expiry isGuest).2,
        (s.is_guest = true ↔ s.user_id = none)) := by
  have hwritten : ∀ s ∈ upsertSessionRow now (sessionsAfterDelete sessions userID isGuest)
      userID token expiry isGuest, s.token = token →
      (s.is_guest = true ↔ s.user_id = none) := by
    intro s hs ht
    obtain ⟨hu, hg, _, _⟩ := upsertSessionRow_written hs ht
    rw [hu, hg, hargs]
    cases userID <;> simp
  constructor
  · intro hok s hs ht
    rcases UpsertSession_cases fault now sessions userID token expiry isGuest with h | h
    · rw [h] at hok
      simp at hok
    · rw [h] at hs
      exact hwritten s hs ht
  · intro hinv s hs
    rcases UpsertSession_cases fault now sessions userID token expiry isGuest with h | h
    · rw [h] at hs
      exact hinv s hs
    · rw [h] at hs
      by_cases ht : s.token = token
      · exact hwritten s hs ht
      · exact hinv s (mem_sessionsAfterDelete (upsertSessionRow_other hs ht))

/-- Witness of C18 amended: the guest insert of `SessionMiddleware` and the login
of user 7. -/
theorem UpsertSession_kind_invariant_witness :
    (∀ s ∈ (UpsertSession noFault 5 [⟨some 7, "T1", 60, false, 2, 2⟩] none "g-1" 99 true).2,
      s.token = "g-1" → (s.is_guest = true ↔ s.user_id = none)) ∧
    (∀ s ∈ (UpsertSession noFault 5 [⟨some 7, "T1", 60, false, 2, 2⟩] (some 7) "T2" 99
        false).2,
      s.token = "T2" → (s.is_guest = true ↔ s.user_id = none)) :=
  ⟨(UpsertSession_kind_invariant noFault 5 [⟨some 7, "T1", 60, false, 2, 2⟩] none "g-1" 99
      true rfl).1 rfl,
   (UpsertSession_kind_invariant noFault 5 [⟨some 7, "T1", 60, false, 2, 2⟩] (some 7) "T2" 99
      false rfl).1 rfl⟩

theorem touch_token_pairwise {sessions : List SessionRow} (now : Int) (t : String)
    (h : sessions.Pairwise (fun a b => a.token ≠ b.token)) :
    (sessions.map (fun s => if s.token = t then { s with last_activity := now } else s)).Pairwise
      (fun a b => a.token ≠ b.token) := by
  rw [List.pairwise_map]
  refine h.imp ?_
  intro a b hab
  have fa : ∀ x : SessionRow,
      (if x.token = t then { x with last_activity := now } else x).token = x.token := by
    intro x
    split <;> rfl
  rw [fa a, fa b]
  exact hab

/-- C19: token uniqueness is kept by every operation on the sessions table. If no
two sessions share a token, then none do after `UpsertSession`,
`UpdateSessionActivity`, `DeleteSession` or `CleanupSessions`, whether the
operation commits or fails; and after a committed `UpsertSession` with token
`token`, fresh or already present, exactly one session has that token. -/
theorem session_tokens_stay_unique (fault : Faults) (zone : Int → Int) (now : Int)
    (sessions : List SessionRow)
    (userID : Option Int) (token : String) (expiry : Int) (isGuest : Bool) (t : String)
    (huniq : sessions.Pairwise (fun a b => a.token ≠ b.token)) :
    (UpsertSession fault now sessions userID token expiry isGuest).2.Pairwise
      (fun a b => a.token ≠ b.token) ∧
    ((UpsertSession fault now sessions userID token expiry isGuest).1 = none →
      ((UpsertSession fault now sessions userID token expiry isGuest).2.filter
        (fun s => decide (s.token = token))).length = 1) ∧
    (UpdateSessionActivity fault now sessions t).2.Pairwise (fun a b => a.token ≠ b.token) ∧
    (DeleteSession fault sessions t).2.Pairwise (fun a b => a.token ≠ b.token) ∧
    (CleanupSessions fault zone now sessions).Pairwise (fun a b => a.token ≠ b.token) := by
  have hup := upsertSessionRow_token_pairwise now userID token expiry isGuest
    (sessionsAfterDelete_pairwise userID isGuest huniq)
  refine ⟨?_, ?_, ?_, ?_, ?_⟩
  · rcases UpsertSession_cases fault now sessions userID token expiry isGuest with h | h
    · rw [h]; exact huniq
    · rw [h]; exact hup
  · intro hok
    rcases UpsertSession_cases fault now sessions userID token expiry isGuest with h | h
    · rw [h] at hok
      simp at hok
    · rw [h]
      exact filter_token_length_one hup (upsertSessionRow_has_token _ _ _ _ _ _)
  · unfold UpdateSessionActivity
    split
    · exact huniq
    · exact touch_token_pairwise now t huniq
  · unfold DeleteSession
    split
    · exact huniq
    · exact huniq.sublist (List.filter_sublist _)
  · unfold CleanupSessions
    split
    · exact huniq
    · exact huniq.sublist (List.filter_sublist _)

/-- Witness of C19: user 7 logs in again with the token "G" that a Guest session
holds; one session has the token "G" afterwards. -/
theorem session_tokens_stay_unique_witness :
    (List.filter (fun s => decide (s.token = "G"))
      (UpsertSession noFault 5 [⟨none, "G", 50, true, 1, 1⟩, ⟨some 7, "T1", 60, false, 2, 2⟩]
        (some 7) "G" 99 false).2).length = 1 :=
  (session_tokens_stay_unique noFault (fun _ => 0) 5
    [⟨none, "G", 50, true, 1, 1⟩, ⟨some 7, "T1", 60, false, 2, 2⟩] (some 7) "G" 99 false "G"
    (by simp)).2.1 rfl

/-- C20: the activity update is advisory. For a request whose token is in the
sessions table and whose existence query runs, `SessionMiddleware` calls the
wrapped handler and sets no cookie, whether `UpdateSessionActivity` commits or
fails, and leaves the table that `UpdateSessionActivity` leaves. A failed
`UpdateSessionActivity` leaves the table as it was. A committed one keeps the
rows in place and keeps subject, token, expiry, kind and creation time of every
row; it sets `last_activity` of the rows with token `t` to `now` and leaves every
other row as it was. -/
theorem touch_is_advisory (fault : Faults) (now : Int) (uuid : String)
    (sessions : List SessionRow) (r : Request) (t : String)
    (hr : r.session_token = some t) (hex : ∃ s ∈ sessions, s.token = t)
    (hq : fault 4 = false) :
    (SessionMiddleware fault now uuid sessions r).outcome = MiddlewareOutcome.next ∧
    (SessionMiddleware fault now uuid sessions r).setCookie = none ∧
    (SessionMiddleware fault now uuid sessions r).sessions
      = (UpdateSessionActivity (fun i => fault (i + 5)) now sessions t).2 ∧
    (∀ g : Faults, (UpdateSessionActivity g now sessions t).1 ≠ none →
      (UpdateSessionActivity g now sessions t).2 = sessions) ∧
    (∀ g : Faults, (UpdateSessionActivity g now sessions t).1 = none →
      List.Forall₂
        (fun old new =>
          new.user_id = old.user_id ∧ new.token = old.token ∧ new.expiry = old.expiry ∧
          new.is_guest = old.is_guest ∧ new.created_at = old.created_at ∧
          (old.token = t → new.last_activity = now) ∧ (old.token ≠ t → new = old))
        sessions (UpdateSessionActivity g now sessions t).2) := by
  have hany : sessions.any (fun s => decide (s.token = t)) = true := by
    rw [List.any_eq_true]
    obtain ⟨s, hs, hst⟩ := hex
    exact ⟨s, hs, by simpa using hst⟩
  refine ⟨?_, ?_, ?_, ?_, ?_⟩
  · simp [SessionMiddleware, hr, hq, hany]
  · simp [SessionMiddleware, hr, hq, hany]
  · simp [SessionMiddleware, hr, hq, hany]
  · intro g herr
    unfold UpdateSessionActivity at herr ⊢
    split
    · rfl
    · rename_i h0
      simp [h0] at herr
  · intro g hok
    unfold UpdateSessionActivity at hok ⊢
    split
    · rename_i h0
      simp [h0] at hok
    · simp only
      clear hany hex hok
      induction sessions with
      | nil => exact List.Forall₂.nil
      | cons a l ih =>
        rw [List.map_cons]
        refine List.Forall₂.cons ?_ ih
        by_cases ha : a.token = t
        · simp [ha]
        · simp [ha]

/-- Witness of C20: the request of user 7 with token "T" while the activity update
fails: the wrapped handler is called and the table is as it was. -/
theorem touch_is_advisory_witness :
    (SessionMiddleware (fun i => decide (i = 5)) 1000 "fresh"
        [⟨some 7, "T", 100, false, 0, 0⟩] ⟨"GET", some "T", fun _ => ""⟩).outcome
      = MiddlewareOutcome.next ∧
    (SessionMiddleware (fun i => decide (i = 5)) 1000 "fresh"
        [⟨some 7, "T", 100, false, 0, 0⟩] ⟨"GET", some "T", fun _ => ""⟩).sessions
      = [⟨some 7, "T", 100, false, 0, 0⟩] :=
  ⟨(touch_is_advisory (fun i => decide (i = 5)) 1000 "fresh"
      [⟨some 7, "T", 100, false, 0, 0⟩] ⟨"GET", some "T", fun _ => ""⟩ "T" rfl
      ⟨_, List.mem_singleton.mpr rfl, rfl⟩ rfl).1, by decide⟩

/-! ## Federated users: lemmas -/

theorem digitChar_toNat (d : Nat) (h : d < 10) : (Char.ofNat (48 + d)).toNat - 48 = d := by
  interval_cases d <;> rfl

theorem digitsValue_append (cs : List Char) (c : Char) :
    digitsValue (cs ++ [c]) = 10 * digitsValue cs + (c.toNat - 48) := by
  simp [digitsValue, List.foldl_append]

theorem digitsValue_decimalDigits : ∀ (fuel n : Nat), n < fuel →
    digitsValue (decimalDigits fuel n) = n := by
  intro fuel
  induction fuel with
  | zero => intro n h; omega
  | succ fuel ih =>
    intro n h
    unfold decimalDigits
    by_cases h10 : n < 10
    · simp only [h10, if_true]
      have := digitChar_toNat n h10
      simpa [digitsValue] using this
    · simp only [h10, if_false]
      rw [digitsValue_append, ih (n / 10) (by omega), digitChar_toNat (n % 10) (by omega)]
      omega

theorem decimalDigits_ne_nil (fuel n : Nat) : decimalDigits (fuel + 1) n ≠ [] := by
  unfold decimalDigits
  split <;> simp

theorem formatDecimal_injective {a b : Nat} (h : formatDecimal a = formatDecimal b) : a = b := by
  have hl : decimalDigits (a + 1) a = decimalDigits (b + 1) b :=
    congrArg String.data h
  have ha := digitsValue_decimalDigits (a + 1) a (by omega)
  have hb := digitsValue_decimalDigits (b + 1) b (by omega)
  rw [hl] at ha
  omega

theorem append_formatDecimal_injective (base : String) {a b : Nat}
    (h : base ++ formatDecimal a = base ++ formatDecimal b) : a = b := by
  apply formatDecimal_injective
  have hd := congrArg String.data h
  simp only [String.data_append] at hd
  exact String.ext (List.append_cancel_left hd)

theorem append_formatDecimal_ne_base (base : String) (k : Nat) :
    base ++ formatDecimal k ≠ base := by
  intro h
  have hd := congrArg String.data h
  simp only [String.data_append, formatDecimal] at hd
  have : decimalDigits (k + 1) k = [] := by
    have := List.append_cancel_left (hd.trans (List.append_nil _).symm)
    exact this
  exact decimalDigits_ne_nil k k this

/-- When the loop has not returned within `fuel` iterations, every candidate it
tried is the username of a row. -/
theorem usernameLoop_none (fault : Faults) (uuid : String) (users : List UserRow)
    (base : String) : ∀ (fuel s : Nat) (username : String),
    usernameLoop fault uuid users base fuel s username = none →
    (0 < fuel → users.any (fun x => decide (x.username = username)) = true) ∧
    ∀ j, s < j → j < s + fuel →
      users.any (fun x => decide (x.username = base ++ formatDecimal j)) = true := by
  intro fuel
  induction fuel with
  | zero =>
    intro s username _
    exact ⟨fun h => absurd h (by omega), fun j h1 h2 => absurd h2 (by omega)⟩
  | succ fuel ih =>
    intro s username h
    unfold usernameLoop at h
    by_cases hf : fault (s - 1) = true
    · simp [hf] at h
    · simp only [hf, Bool.false_eq_true, if_false] at h
      by_cases ht : users.any (fun x => decide (x.username = username)) = true
      · simp only [ht, if_true] at h
        obtain ⟨ih1, ih2⟩ := ih (s + 1) (base ++ formatDecimal (s + 1)) h
        refine ⟨fun _ => ht, ?_⟩
        intro j h1 h2
        by_cases hj : j = s + 1
        · rw [hj]
          exact ih1 (by omega)
        · exact ih2 j (by omega) (by omega)
      · simp [ht] at h

/-- What the loop returns when no existence query fails: the current candidate
when it is free, else the base followed by the first later suffix that is
free. -/
theorem usernameLoop_some (fault : Faults) (uuid : String) (users : List UserRow)
    (base : String) (hq : ∀ i, fault i = false) : ∀ (fuel s : Nat) (username u : String),
    usernameLoop fault uuid users base fuel s username = some u →
    users.any (fun x => decide (x.username = u)) = false ∧
    ((users.any (fun x => decide (x.username = username)) = false ∧ u = username) ∨
     (users.any (fun x => decide (x.username = username)) = true ∧
      ∃ k, s < k ∧ u = base ++ formatDecimal k ∧
        ∀ j, s < j → j < k →
          users.any (fun x => decide (x.username = base ++ formatDecimal j)) = true)) := by
  intro fuel
  induction fuel with
  | zero =>
    intro s username u h
    simp [usernameLoop] at h
  | succ fuel ih =>
    intro s username u h
    unfold usernameLoop at h
    simp only [hq, Bool.false_eq_true, if_false] at h
    by_cases ht : users.any (fun x => decide (x.username = username)) = true
    · simp only [ht, if_true] at h
      obtain ⟨hfree, hcase⟩ := ih (s + 1) (base ++ formatDecimal (s + 1)) u h
      refine ⟨hfree, Or.inr ⟨ht, ?_⟩⟩
      rcases hcase with ⟨_, hu⟩ | ⟨ht2, k, hk, hu, hall⟩
      · exact ⟨s + 1, by omega, hu, fun j h1 h2 => absurd h2 (by omega)⟩
      · refine ⟨k, by omega, hu, ?_⟩
        intro j h1 h2
        by_cases hj : j = s + 1
        · rw [hj]; exact ht2
        · exact hall j (by omega) h2
    · simp only [ht, Bool.false_eq_true, if_false, Option.some.injEq] at h
      have ht2 : users.any (fun x => decide (x.username = username)) = false := by
        simpa using ht
      rw [← h]
      exact ⟨ht2, Or.inl ⟨ht2, rfl⟩⟩

/-- The loop of `generateUsername` returns within as many iterations as the users
table has rows, plus one, whatever the store does. -/
theorem generateUsername_isSome (fault : Faults) (uuid : String) (users : List UserRow)
    (email name provider : String) :
    ∃ u, generateUsername fault uuid users email name provider = some u := by
  rcases h : generateUsername fault uuid users email name provider with _ | u
  swap
  · exact ⟨u, rfl⟩
  exfalso
  unfold generateUsername at h
  obtain ⟨h1, h2⟩ := usernameLoop_none fault uuid users _ _ _ _ h
  have hmem : ∀ c : String, users.any (fun x => decide (x.username = c)) = true →
      c ∈ users.map (fun x => x.username) := by
    intro c hc
    rw [List.any_eq_true] at hc
    obtain ⟨x, hx, hxc⟩ := hc
    rw [List.mem_map]
    exact ⟨x, hx, by simpa using hxc⟩
  have hnodup : (baseUsername email name provider ::
      (List.range users.length).map
        (fun i => baseUsername email name provider ++ formatDecimal (i + 2))).Nodup := by
    rw [List.nodup_cons]
    constructor
    · intro hin
      rw [List.mem_map] at hin
      obtain ⟨i, _, hi⟩ := hin
      exact append_formatDecimal_ne_base _ _ hi
    · refine List.Nodup.map ?_ (List.nodup_range _)
      intro i j hij
      have := append_formatDecimal_injective _ hij
      omega
  have hsub : (baseUsername email name provider ::
      (List.range users.length).map
        (fun i => baseUsername email name provider ++ formatDecimal (i + 2)))
      ⊆ users.map (fun x => x.username) := by
    intro c hc
    rcases List.mem_cons.mp hc with hc | hc
    · rw [hc]
      exact hmem _ (h1 (by omega))
    · rw [List.mem_map] at hc
      obtain ⟨i, hi, hic⟩ := hc
      rw [List.mem_range] at hi
      rw [← hic]
      exact hmem _ (h2 (i + 2) (by omega) (by omega))
  have hlen := (List.subperm_of_subset hnodup hsub).length_le
  simp at hlen

theorem any_username_eq_true {users : List UserRow} {c : String} :
    users.any (fun x => decide (x.username = c)) = true ↔ ∃ x ∈ users, x.username = c := by
  simp [List.any_eq_true]

theorem any_username_eq_false {users : List UserRow} {c : String} :
    users.any (fun x => decide (x.username = c)) = false ↔ ∀ x ∈ users, x.username ≠ c := by
  rw [Bool.eq_false_iff, Ne, any_username_eq_true]
  constructor
  · intro h x hx hc
    exact h ⟨x, hx, hc⟩
  · rintro h ⟨x, hx, hc⟩
    exact h x hx hc

/-- The result of `generateUsername` when no existence query fails. -/
theorem generateUsername_spec (fault : Faults) (uuid : String) (users : List UserRow)
    (email name provider : String) (hq : ∀ i, fault i = false) :
    ∃ u, generateUsername fault uuid users email name provider = some u ∧
      (∀ x ∈ users, x.username ≠ u) ∧
      ((∀ x ∈ users, x.username ≠ baseUsername email name provider) →
        u = baseUsername email name provider) ∧
      ((∃ x ∈ users, x.username = baseUsername email name provider) →
        ∃ k, 2 ≤ k ∧ u = baseUsername email name provider ++ formatDecimal k ∧
          ∀ j, 2 ≤ j → j < k →
            ∃ x ∈ users, x.username = baseUsername email name provider ++ formatDecimal j) := by
  obtain ⟨u, hu⟩ := generateUsername_isSome fault uuid users email name provider
  refine ⟨u, hu, ?_⟩
  unfold generateUsername at hu
  obtain ⟨hfree, hcase⟩ := usernameLoop_some fault uuid users _ hq _ _ _ _ hu
  refine ⟨any_username_eq_false.mp hfree, ?_, ?_⟩
  · intro hb
    rcases hcase with ⟨_, h⟩ | ⟨ht, _⟩
    · exact h
    · rw [any_username_eq_false.mpr hb] at ht
      exact Bool.noConfusion ht
  · intro hb
    rcases hcase with ⟨hf, _⟩ | ⟨_, k, hk, huk, hall⟩
    · rw [any_username_eq_true.mpr hb] at hf
      exact Bool.noConfusion hf
    · exact ⟨k, by omega, huk, fun j h1 h2 => any_username_eq_true.mp (hall j (by omega) h2)⟩

theorem nextUserID_fresh (seq : Int) (users : List UserRow) :
    ∀ x ∈ users, x.id < nextUserID seq users := by
  have hge : ∀ (l : List UserRow) (m : Int), m ≤ l.foldl (fun m u => max m u.id) m ∧
      ∀ x ∈ l, x.id ≤ l.foldl (fun m u => max m u.id) m := by
    intro l
    induction l with
    | nil => intro m; simp
    | cons a l ih =>
      intro m
      rw [List.foldl_cons]
      obtain ⟨h1, h2⟩ := ih (max m a.id)
      refine ⟨le_trans (le_max_left _ _) h1, ?_⟩
      intro x hx
      rcases List.mem_cons.mp hx with h | h
      · rw [h]; exact le_trans (le_max_right _ _) h1
      · exact h2 x h
  intro x hx
  unfold nextUserID
  have := (hge users (max seq 0)).2 x hx
  omega

/-- A `GetOrCreateUser` that finds no user with the email and returns a user has
inserted that user with a username that `generateUsername` gave and that no
prior row had. -/
theorem GetOrCreateUser_created {fault : Faults} {uuid : String} {seq : Int}
    {users users1 : List UserRow} {email name provider : String} {user : User}
    (hno : ∀ x ∈ users, x.email ≠ email)
    (h : GetOrCreateUser fault uuid seq users email name provider = some (.ok user, users1)) :
    ∃ username,
      generateUsername (fun i => fault (i + 3)) uuid users email name provider = some username ∧
      user = ⟨nextUserID seq users, username, email, ""⟩ ∧
      users1 = users ++ [⟨nextUserID seq users, username, email, ""⟩] ∧
      ∀ x ∈ users, x.username ≠ username := by
  have hfind : users.find? (fun u => decide (u.email = email)) = none := by
    rw [List.find?_eq_none]
    intro x hx
    simpa using hno x hx
  obtain ⟨username, hgen⟩ :=
    generateUsername_isSome (fun i => fault (i + 3)) uuid users email name provider
  refine ⟨username, hgen, ?_⟩
  unfold GetOrCreateUser at h
  by_cases h0 : fault 0 = true
  · simp [h0] at h
  simp only [h0, Bool.false_eq_true, if_false, hfind, hgen, Option.map,
    Option.some.injEq] at h
  by_cases h1 : fault 1 = true
  · simp [h1] at h
  simp only [h1, Bool.false_eq_true, if_false] at h
  unfold insertUser at h
  by_cases hany : users.any
      (fun u => decide (u.username = username) || decide (u.email = email)) = true
  · simp [hany] at h
  simp only [hany, Bool.false_eq_true, if_false] at h
  by_cases h2 : fault 2 = true
  · simp [h2] at h
  simp only [h2, Bool.false_eq_true, if_false, Prod.mk.injEq, Except.ok.injEq] at h
  refine ⟨h.1.symm, h.2.symm, ?_⟩
  intro x hx hxu
  apply hany
  rw [List.any_eq_true]
  exact ⟨x, hx, by simp [hxu]⟩

/-- On a healthy store a `GetOrCreateUser` that finds no user with the email
returns a user. -/
theorem GetOrCreateUser_healthy (fault : Faults) (uuid : String) (seq : Int)
    (users : List UserRow) (email name provider : String)
    (hq : ∀ i, fault i = false) (hno : ∀ x ∈ users, x.email ≠ email) :
    ∃ user users1,
      GetOrCreateUser fault uuid seq users email name provider = some (.ok user, users1) := by
  have hfind : users.find? (fun u => decide (u.email = email)) = none := by
    rw [List.find?_eq_none]
    intro x hx
    simpa using hno x hx
  obtain ⟨username, hgen, hfree, _, _⟩ :=
    generateUsername_spec (fun i => fault (i + 3)) uuid users email name provider
      (fun i => hq (i + 3))
  have hany : users.any
      (fun u => decide (u.username = username) || decide (u.email = email)) = false := by
    rw [Bool.eq_false_iff]
    intro h
    rw [List.any_eq_true] at h
    obtain ⟨x, hx, hxc⟩ := h
    simp only [Bool.or_eq_true, decide_eq_true_eq] at hxc
    rcases hxc with hxc | hxc
    · exact hfree x hx hxc
    · exact hno x hx hxc
  refine ⟨⟨nextUserID seq users, username, email, ""⟩,
    users ++ [⟨nextUserID seq users, username, email, ""⟩], ?_⟩
  unfold GetOrCreateUser
  rw [hgen]
  simp only [hq 0, hq 1, hq 2, hfind, insertUser, Bool.false_eq_true, if_false, Option.map,
    hany]

/-! ## Federated users: the claims -/

/-- C21: for a users table with unique emails that holds a user with the given
email, `GetOrCreateUser`, when its query runs, returns the id, username and email
of that user and no error, and leaves the users table as it was, whatever name
and provider are. -/
theorem GetOrCreateUser_returns_existing (fault : Faults) (uuid : String) (seq : Int)
    (users : List UserRow) (usr : UserRow) (name provider : String)
    (husr : usr ∈ users) (hemails : users.Pairwise (fun a b => a.email ≠ b.email))
    (hq : fault 0 = false) :
    GetOrCreateUser fault uuid seq users usr.email name provider
      = some (.ok ⟨usr.id, usr.username, usr.email, ""⟩, users) := by
  have hfind := find?_of_mem_pairwise UserRow.email users usr husr hemails
  simp only [GetOrCreateUser, hq, Bool.false_eq_true, if_false, hfind]

/-- Witness of C21: the second login of ann@example.org through another provider. -/
theorem GetOrCreateUser_returns_existing_witness :
    GetOrCreateUser noFault "u-1" 2
        [⟨1, "GO_bob", "bob@example.org", ""⟩, ⟨2, "GO_ann", "ann@example.org", ""⟩]
        "ann@example.org" "annie" "github"
      = some (.ok ⟨2, "GO_ann", "ann@example.org", ""⟩,
          [⟨1, "GO_bob", "bob@example.org", ""⟩, ⟨2, "GO_ann", "ann@example.org", ""⟩]) :=
  GetOrCreateUser_returns_existing noFault "u-1" 2
    [⟨1, "GO_bob", "bob@example.org", ""⟩, ⟨2, "GO_ann", "ann@example.org", ""⟩]
    ⟨2, "GO_ann", "ann@example.org", ""⟩ "annie" "github" (by decide) (by decide) rfl

/-- C22: for a users table with no user of the given email, a `GetOrCreateUser`
that returns a user has added exactly one row after the prior rows, which are as
they were: the row has the id and username of the returned user, the given email
and an empty password; the returned user carries that email; no prior row had
that username or that id. On a healthy store the call does return a user. -/
theorem GetOrCreateUser_adds_one_user (fault : Faults) (uuid : String) (seq : Int)
    (users : List UserRow) (email name provider : String)
    (hno : ∀ x ∈ users, x.email ≠ email) :
    (∀ (user : User) (users1 : List UserRow),
      GetOrCreateUser fault uuid seq users email name provider = some (.ok user, users1) →
      users1 = users ++ [⟨user.ID, user.Username, email, ""⟩] ∧
      user.Email = email ∧ user.Password = "" ∧
      (∀ x ∈ users, x.username ≠ user.Username) ∧ (∀ x ∈ users, x.id ≠ user.ID)) ∧
    ((∀ i, fault i = false) →
      ∃ user users1,
        GetOrCreateUser fault uuid seq users email name provider = some (.ok user, users1)) := by
  constructor
  · intro user users1 h
    obtain ⟨username, _, hu, hu1, hfree⟩ := GetOrCreateUser_created hno h
    rw [hu, hu1]
    refine ⟨rfl, rfl, rfl, hfree, ?_⟩
    intro x hx hid
    have := nextUserID_fresh seq users x hx
    simp only at hid
    omega
  · intro hq
    exact GetOrCreateUser_healthy fault uuid seq users email name provider hq hno

/-- Witness of C22: the first login of ann.lee@example.org through Google while
"GO_ann" is taken. -/
theorem GetOrCreateUser_adds_one_user_witness :
    ([(⟨1, "GO_ann", "ann@example.org", "h"⟩ : UserRow),
        ⟨2, "GO_ann2", "ann.lee@example.org", ""⟩]
      = [⟨1, "GO_ann", "ann@example.org", "h"⟩]
        ++ [⟨(⟨2, "GO_ann2", "ann.lee@example.org", ""⟩ : User).ID,
            (⟨2, "GO_ann2", "ann.lee@example.org", ""⟩ : User).Username,
            "ann.lee@example.org", ""⟩]) ∧
    (∃ user users1,
      GetOrCreateUser noFault "u-1" 1 [⟨1, "GO_ann", "ann@example.org", "h"⟩]
        "ann.lee@example.org" "Ann Lee" "google" = some (.ok user, users1)) :=
  ⟨((GetOrCreateUser_adds_one_user noFault "u-1" 1 [⟨1, "GO_ann", "ann@example.org", "h"⟩]
    "ann.lee@example.org" "Ann Lee" "google" (by decide)).1
    ⟨2, "GO_ann2", "ann.lee@example.org", ""⟩
    [⟨1, "GO_ann", "ann@example.org", "h"⟩, ⟨2, "GO_ann2", "ann.lee@example.org", ""⟩] rfl).1,
   (GetOrCreateUser_adds_one_user noFault "u-1" 1 [⟨1, "GO_ann", "ann@example.org", "h"⟩]
    "ann.lee@example.org" "Ann Lee" "google" (by decide)).2 (fun _ => rfl)⟩

/-- C23, refuted as stated: `GetOrCreateUser` with an empty email on an empty users
table reads the table and inserts a user with the empty email; and
`GoogleCallbackHandler`, given a provider response with an empty email, creates
that user and a session for it. -/
theorem GetOrCreateUser_accepts_empty_email :
    GetOrCreateUser noFault "u-1" 0 [] "" "Ann" "google"
      = some (.ok ⟨1, "GO_", "", ""⟩, [⟨1, "GO_", "", ""⟩]) ∧
    GoogleCallbackHandler noFault noFault 1000 "u-1" "t-1" 0 [] [] "state"
        ⟨"GET", none, fun _ => "state"⟩ (some ⟨"", "Ann"⟩)
      = some ⟨[⟨1, "GO_", "", ""⟩], [⟨some 1, "t-1", 1000 + 24 * Hour, false, 1000, 1000⟩],
          some ⟨"session_token", "t-1", 1000 + 24 * Hour⟩, "/", 303⟩ :=
  ⟨rfl, by decide⟩

/-- C23, amended: `GetOrCreateUser` does not validate its email; on a healthy store
and a users table with no user of the empty email, a call with the empty email
returns a user, and the row it adds has the empty email. The check is made by
the caller on the GitHub path: when the provider response carries no email, also
after the fallback to the first primary and verified entry of the email list,
`GithubCallbackHandler` redirects to "/" with status 307 before any read or
write of the users table; both tables are as they were and no cookie is set. -/
theorem empty_email_rejected_by_github_callback (fault sfault : Faults) (now : Int)
    (uuid tokenUuid : String) (seq : Int) (users : List UserRow) (sessions : List SessionRow)
    (oauthStateString : String) (r : Request) (userInfo : GithubUserInfo)
    (emails : Option (List GithubEmail)) (name provider : String)
    (hempty : userInfo.Email = "")
    (hlist : ∀ list, emails = some list → githubEmail userInfo list = "")
    (hno : ∀ x ∈ users, x.email ≠ "") :
    GithubCallbackHandler fault sfault now uuid tokenUuid seq users sessions oauthStateString r
        (some userInfo) emails
      = some ⟨users, sessions, none, "/", 307⟩ ∧
    ((∀ i, fault i = false) →
      ∃ user users1,
        GetOrCreateUser fault uuid seq users "" name provider = some (.ok user, users1) ∧
        users1 = users ++ [⟨user.ID, user.Username, "", ""⟩]) := by
  constructor
  · unfold GithubCallbackHandler
    split
    · rfl
    · simp only [hempty, if_true]
      cases emails with
      | none => rfl
      | some list =>
        have := hlist list rfl
        simp only [this, if_true]
  · intro hq
    obtain ⟨user, users1, h⟩ := GetOrCreateUser_healthy fault uuid seq users "" name provider hq hno
    obtain ⟨username, _, hu, hu1, _⟩ := GetOrCreateUser_created hno h
    refine ⟨user, users1, h, ?_⟩
    rw [hu, hu1]

/-- Witness of C23 amended: a GitHub user whose only listed email is not
verified. -/
theorem empty_email_rejected_by_github_callback_witness :
    GithubCallbackHandler noFault noFault 1000 "u-1" "t-1" 0 [] [] "state"
        ⟨"GET", none, fun _ => "state"⟩ (some ⟨"", "Octo Cat", "octo"⟩)
        (some [⟨"octo@example.org", true, false⟩])
      = some ⟨[], [], none, "/", 307⟩ :=
  (empty_email_rejected_by_github_callback noFault noFault 1000 "u-1" "t-1" 0 [] []
    "state" ⟨"GET", none, fun _ => "state"⟩ ⟨"", "Octo Cat", "octo"⟩
    (some [⟨"octo@example.org", true, false⟩]) "Ann" "google" rfl
    (by intro list h; cases h; decide) (by decide)).1

/-- C28: when no existence query fails, `generateUsername` returns, within as many
iterations as the users table has rows plus one, a username that no row has: the
base candidate when it is free, otherwise the base followed by the smallest
integer `k` from 2 on for which the base followed by `k` is free. The base is
"GIT_" and the name for github, "GO_" and the part of the email before the
first '@' and before the first '.' for google. The result is the same for two
users tables with the same set of usernames. -/
theorem generateUsername_returns_free (fault : Faults) (uuid : String) (users : List UserRow)
    (email name provider : String) (hq : ∀ i, fault i = false) :
    (baseUsername email name "github" = "GIT_" ++ name ∧
      baseUsername email name "google" = "GO_" ++
        String.mk ((email.toList.takeWhile (fun c => c ≠ '@')).takeWhile (fun c => c ≠ '.'))) ∧
    (∃ u, generateUsername fault uuid users email name provider = some u ∧
      (∀ x ∈ users, x.username ≠ u) ∧
      ((∀ x ∈ users, x.username ≠ baseUsername email name provider) →
        u = baseUsername email name provider) ∧
      ((∃ x ∈ users, x.username = baseUsername email name provider) →
        ∃ k, 2 ≤ k ∧ u = baseUsername email name provider ++ formatDecimal k ∧
          ∀ j, 2 ≤ j → j < k →
            ∃ x ∈ users, x.username = baseUsername email name provider ++ formatDecimal j)) ∧
    (∀ (users2 : List UserRow) (uuid2 : String),
      (∀ c, (∃ x ∈ users2, x.username = c) ↔ (∃ x ∈ users, x.username = c)) →
      generateUsername fault uuid2 users2 email name provider
        = generateUsername fault uuid users email name provider) := by
  refine ⟨⟨by simp [baseUsername], by simp [baseUsername]⟩,
    generateUsername_spec fault uuid users email name provider hq, ?_⟩
  intro users2 uuid2 hsame
  obtain ⟨u, hu, hfree, hb, ht⟩ := generateUsername_spec fault uuid users email name provider hq
  obtain ⟨v, hv, hfree2, hb2, ht2⟩ :=
    generateUsername_spec fault uuid2 users2 email name provider hq
  rw [hu, hv]
  congr 1
  by_cases hbase : ∃ x ∈ users, x.username = baseUsername email name provider
  · obtain ⟨k, _, huk, hall⟩ := ht hbase
    obtain ⟨k2, _, hvk, hall2⟩ := ht2 ((hsame _).mpr hbase)
    have hk : k2 = k := by
      rcases Nat.lt_trichotomy k2 k with hlt | heq | hgt
      · exfalso
        obtain ⟨x, hx, hxc⟩ := (hsame _).mpr (hall k2 (by omega) hlt)
        exact hfree2 x hx (hxc.trans hvk.symm)
      · exact heq
      · exfalso
        obtain ⟨x, hx, hxc⟩ := (hsame _).mp (hall2 k (by omega) hgt)
        exact hfree x hx (hxc.trans huk.symm)
    rw [huk, hvk, hk]
  · have hb1 : ∀ x ∈ users, x.username ≠ baseUsername email name provider :=
      fun x hx hc => hbase ⟨x, hx, hc⟩
    have hb3 : ∀ x ∈ users2, x.username ≠ baseUsername email name provider :=
      fun x hx hc => hbase ((hsame _).mp ⟨x, hx, hc⟩)
    rw [hb hb1, hb2 hb3]

/-- Witness of C28: "GO_ann" and "GO_ann2" are taken, so the third Ann is
"GO_ann3". -/
theorem generateUsername_returns_free_witness :
    ∃ u, generateUsername noFault "u-1"
        [⟨1, "GO_ann", "ann@example.org", ""⟩, ⟨2, "GO_ann2", "ann@example.com", ""⟩]
        "ann.lee@example.net" "Ann Lee" "google" = some u ∧
      (∀ x ∈ [(⟨1, "GO_ann", "ann@example.org", ""⟩ : UserRow),
          ⟨2, "GO_ann2", "ann@example.com", ""⟩], x.username ≠ u) :=
  match (generateUsername_returns_free noFault "u-1"
      [⟨1, "GO_ann", "ann@example.org", ""⟩, ⟨2, "GO_ann2", "ann@example.com", ""⟩]
      "ann.lee@example.net" "Ann Lee" "google" (fun _ => rfl)).2.1 with
  | ⟨u, h1, h2, _⟩ => ⟨u, h1, h2⟩

/-! ## Deleting a post: the cascade -/

/-- The two outcomes of `deletePost`: an error with the tables as they were, or
the commit of the four DELETEs. -/
theorem deletePost_cases (fault : Faults) (db : ForumDB) (postID : Int) :
    ((deletePost fault db postID).1 ≠ none ∧ (deletePost fault db postID).2.1 = db) ∨
    ((deletePost fault db postID).1 = none ∧
      (deletePost fault db postID).2.1 =
        ⟨db.post_categories.filter (fun c => !decide (c.post_id = some postID)),
         db.likes.filter (fun l => !decide (l.post_id = some postID)),
         db.comments.filter (fun c => !decide (c.post_id = some postID)),
         db.posts.filter (fun p => !decide (p.id = postID))⟩) := by
  unfold deletePost
  by_cases h0 : fault 0 = true
  · left; simp [h0]
  by_cases h1 : fault 1 = true
  · left; simp [h0, h1]
  by_cases h2 : fault 2 = true
  · left; simp [h0, h1, h2]
  by_cases h3 : fault 3 = true
  · left; simp [h0, h1, h2, h3]
  simp only [h0, h1, h2, h3, Bool.false_eq_true, if_false]
  by_cases h4 : fault 4 = true
  · left; simp [h4]
  simp only [h4, Bool.false_eq_true, if_false]
  rcases hs : scanImageFilename db.posts postID with e | f
  · cases e
    · left; simp
    · by_cases h5 : fault 5 = true
      · left; simp [h5]
      by_cases h6 : fault 6 = true
      · left; simp [h5, h6]
      right; simp [h5, h6]
    · left; simp
    · left; simp
  · by_cases h5 : fault 5 = true
    · left; simp [h5]
    by_cases h6 : fault 6 = true
    · left; simp [h5, h6]
    right; simp [h5, h6]

/-- C24: after a `deletePost(p)` that returns no error the likes table holds no row
whose `post_id` is `p`, so `GetLikeCounts(p, true)`, when its query runs,
returns `(0, 0)`; and when `deletePost` returns an error the likes table, like
the three other tables, is as it was. -/
theorem deletePost_removes_post_likes (fault : Faults) (db : ForumDB) (postID : Int) :
    ((deletePost fault db postID).1 = none →
      (∀ l ∈ (deletePost fault db postID).2.1.likes, l.post_id ≠ some postID) ∧
      (∀ g : Faults, g 0 = false →
        (GetLikeCounts g (deletePost fault db postID).2.1.likes postID true).1
          = (0, 0, none))) ∧
    ((deletePost fault db postID).1 ≠ none →
      (deletePost fault db postID).2.1.likes = db.likes ∧
      (deletePost fault db postID).2.1 = db) := by
  rcases deletePost_cases fault db postID with ⟨he, hd⟩ | ⟨he, hd⟩
  · exact ⟨fun hn => absurd hn he, fun _ => ⟨by rw [hd], hd⟩⟩
  · refine ⟨fun _ => ?_, fun hn => absurd he hn⟩
    rw [hd]
    simp only
    have hnone : ∀ l ∈ db.likes.filter (fun l => !decide (l.post_id = some postID)),
        l.post_id ≠ some postID := by
      intro l hl
      have := (List.mem_filter.mp hl).2
      simpa using this
    refine ⟨hnone, ?_⟩
    intro g hg
    have hnil : (db.likes.filter (fun l => !decide (l.post_id = some postID))).filter
        (targetMatch true postID) = [] := by
      rw [List.filter_eq_nil_iff]
      intro l hl
      simpa [targetMatch] using hnone l hl
    simp [GetLikeCounts, hg, hnil]

/-- Witness of C24: post 1 with one like and one category; post 2 keeps its
dislike. -/
theorem deletePost_removes_post_likes_witness :
    ∀ l ∈ (deletePost noFault
        ⟨[⟨some 1, some 4⟩], [⟨3, some 1, none, true⟩, ⟨3, some 2, none, false⟩], [],
          [⟨1, some 3, "t", "c", some ""⟩, ⟨2, some 3, "t2", "c2", some ""⟩]⟩ 1).2.1.likes,
      l.post_id ≠ some 1 :=
  ((deletePost_removes_post_likes noFault
    ⟨[⟨some 1, some 4⟩], [⟨3, some 1, none, true⟩, ⟨3, some 2, none, false⟩], [],
      [⟨1, some 3, "t", "c", some ""⟩, ⟨2, some 3, "t2", "c2", some ""⟩]⟩ 1).1 rfl).1

/-- C26: `deletePost` removes the comments of the post and leaves their reactions.
No call removes a likes row whose `post_id` is NULL, which is every reaction to
a comment; so after the committed deletion of post 1, whose comment 5 actor 3
liked, comment 5 is gone and the likes table still holds the row with
`comment_id` 5. -/
theorem deletePost_keeps_comment_reactions :
    (∀ (fault : Faults) (db : ForumDB) (postID : Int),
      (deletePost fault db postID).2.1.likes.filter (fun l => decide (l.post_id = none))
        = db.likes.filter (fun l => decide (l.post_id = none))) ∧
    deletePost noFault
        ⟨[], [⟨3, none, some 5, true⟩], [⟨5, some 1, some 3, "hi"⟩],
          [⟨1, some 3, "t", "c", some ""⟩]⟩ 1
      = (none, ⟨[], [⟨3, none, some 5, true⟩], [], []⟩, none) := by
  refine ⟨?_, by decide⟩
  intro fault db postID
  rcases deletePost_cases fault db postID with ⟨_, hd⟩ | ⟨_, hd⟩
  · rw [hd]
  · rw [hd]
    simp only [List.filter_filter]
    apply List.filter_congr
    intro l _
    cases hl : l.post_id <;> simp

/-! ## Reactions: further claims -/

/-- C25, refuted as stated: from Liked, two likes of actor 3 on post 9 end with
the like row in place, one row and not zero; from Liked, two dislikes end with
zero rows and the counts (0, 0) where they were (1, 0). -/
theorem UpsertLike_twice_from_liked :
    UpsertLike noFault [⟨3, some 9, none, true⟩] 3 9 true true = (none, []) ∧
    UpsertLike noFault [] 3 9 true true = (none, [⟨3, some 9, none, true⟩]) ∧
    pairRows [⟨3, some 9, none, true⟩] true 3 9 = [true] ∧
    UpsertLike noFault [⟨3, some 9, none, true⟩] 3 9 false true
      = (none, [⟨3, some 9, none, false⟩]) ∧
    UpsertLike noFault [⟨3, some 9, none, false⟩] 3 9 false true = (none, []) ∧
    (GetLikeCounts noFault [⟨3, some 9, none, true⟩] 9 true).1 = (1, 0, none) ∧
    (GetLikeCounts noFault [] 9 true).1 = (0, 0, none) := by
  decide

/-- C25, amended: two consecutive committed `UpsertLike` calls with polarity `p`
leave the pair in the state that two steps of the transition table give. From
None the pair ends with zero rows and the counts of the target are as before the
first call; from the polarity `p` the pair ends with its one row of polarity `p`
and the counts are as before; from the opposite polarity the pair ends with zero
rows, the count of the opposite polarity is one less than before and the count
of `p` is as before. -/
theorem UpsertLike_twice_any_state (f1 f2 : Faults) (likes likes1 likes2 : List LikeRow)
    (userID targetID : Int) (p isPost : Bool) (s : Option Bool)
    (hs : pairRows likes isPost userID targetID = s.toList)
    (h1 : UpsertLike f1 likes userID targetID p isPost = (none, likes1))
    (h2 : UpsertLike f2 likes1 userID targetID p isPost = (none, likes2)) :
    pairRows likes2 isPost userID targetID = (specToggle (specToggle s p) p).toList ∧
    (s = none →
      pairRows likes2 isPost userID targetID = [] ∧
      ∀ q, countOf likes2 isPost targetID q = countOf likes isPost targetID q) ∧
    (s = some p →
      pairRows likes2 isPost userID targetID = [p] ∧
      ∀ q, countOf likes2 isPost targetID q = countOf likes isPost targetID q) ∧
    (s = some (!p) →
      pairRows likes2 isPost userID targetID = [] ∧
      countOf likes2 isPost targetID p = countOf likes isPost targetID p ∧
      countOf likes2 isPost targetID (!p) + 1 = countOf likes isPost targetID (!p)) := by
  have st1 := UpsertLike_state f1 likes userID targetID p isPost s hs
  rw [h1] at st1
  simp only [if_true] at st1
  have st2 := UpsertLike_state f2 likes1 userID targetID p isPost (specToggle s p) st1
  rw [h2] at st2
  simp only [if_true] at st2
  have b1 := fun q => UpsertLike_count_balance f1 likes userID targetID p isPost q
  have b2 := fun q => UpsertLike_count_balance f2 likes1 userID targetID p isPost q
  simp only [h1, hs, st1] at b1
  simp only [h2, st1, st2] at b2
  refine ⟨st2, ?_, ?_, ?_⟩
  · intro hnone
    subst hnone
    refine ⟨by rw [st2]; simp [specToggle], ?_⟩
    intro q
    have e1 := b1 q
    have e2 := b2 q
    cases p <;> cases q <;> simp [specToggle] at e1 e2 <;> omega
  · intro hp
    subst hp
    refine ⟨by rw [st2]; simp [specToggle], ?_⟩
    intro q
    have e1 := b1 q
    have e2 := b2 q
    cases p <;> cases q <;> simp [specToggle] at e1 e2 <;> omega
  · intro hp
    subst hp
    refine ⟨by rw [st2]; cases p <;> simp [specToggle], ?_, ?_⟩
    · have e1 := b1 p
      have e2 := b2 p
      cases p <;> simp [specToggle] at e1 e2 <;> omega
    · have e1 := b1 (!p)
      have e2 := b2 (!p)
      cases p <;> simp [specToggle] at e1 e2 ⊢ <;> omega

/-- Witness of C25 amended: actor 3 holds a like on post 9 and dislikes twice. -/
theorem UpsertLike_twice_any_state_witness :
    pairRows ([] : List LikeRow) true 3 9
      = (specToggle (specToggle (some true) false) false).toList :=
  (UpsertLike_twice_any_state noFault noFault [⟨3, some 9, none, true⟩]
    [⟨3, some 9, none, false⟩] [] 3 9 false true (some true) (by decide) (by decide)
    (by decide)).1

/-! ## Reactions: toggles on distinct keys -/

theorem UpsertLike_eq_likeStep (fault : Faults) (likes : List LikeRow) (u t : Int)
    (p isPost : Bool) :
    UpsertLike fault likes u t p isPost =
      if fault 0 || fault 1 || fault 2 || fault 3 then (some Err.storage, likes)
      else (none, likeStep likes isPost u t p) :=
  UpsertLike_eq fault likes u t p isPost

/-- A row belongs to one key at most. -/
theorem likeKey_disjoint {a1 t1 a2 t2 : Int} {k1 k2 : Bool}
    (hne : (a1, t1, k1) ≠ (a2, t2, k2)) {r : LikeRow}
    (h : likeKey k1 a1 t1 r = true) : likeKey k2 a2 t2 r = false := by
  rw [Bool.eq_false_iff]
  intro h2
  apply hne
  cases k1 <;> cases k2 <;> simp_all [likeKey]

theorem likeKey_disjoint_symm {a1 t1 a2 t2 : Int} {k1 k2 : Bool}
    (hne : (a1, t1, k1) ≠ (a2, t2, k2)) {r : LikeRow}
    (h : likeKey k2 a2 t2 r = true) : likeKey k1 a1 t1 r = false :=
  likeKey_disjoint (fun e => hne e.symm) h

theorem deleteLike_append_other {a1 t1 a2 t2 : Int} {k1 k2 : Bool}
    (hne : (a1, t1, k1) ≠ (a2, t2, k2)) (l : List LikeRow) (p : Bool) :
    deleteLike (l ++ [newLikeRow k1 a1 t1 p]) k2 a2 t2
      = deleteLike l k2 a2 t2 ++ [newLikeRow k1 a1 t1 p] := by
  have h := likeKey_disjoint hne (likeKey_newLikeRow k1 a1 t1 p)
  simp [deleteLike, List.filter_append, List.filter_cons, h]

theorem updateLike_append_other {a1 t1 a2 t2 : Int} {k1 k2 : Bool}
    (hne : (a1, t1, k1) ≠ (a2, t2, k2)) (l : List LikeRow) (p q : Bool) :
    updateLike (l ++ [newLikeRow k1 a1 t1 p]) k2 a2 t2 q
      = updateLike l k2 a2 t2 q ++ [newLikeRow k1 a1 t1 p] := by
  have h := likeKey_disjoint hne (likeKey_newLikeRow k1 a1 t1 p)
  simp [updateLike, List.map_append, h]

theorem deleteLike_comm (l : List LikeRow) (a1 t1 a2 t2 : Int) (k1 k2 : Bool) :
    deleteLike (deleteLike l k1 a1 t1) k2 a2 t2 = deleteLike (deleteLike l k2 a2 t2) k1 a1 t1 := by
  simp only [deleteLike, List.filter_filter]
  apply List.filter_congr
  intro r _
  exact Bool.and_comm _ _

theorem deleteLike_updateLike_other {a1 t1 a2 t2 : Int} {k1 k2 : Bool}
    (l : List LikeRow) (p : Bool) :
    deleteLike (updateLike l k1 a1 t1 p) k2 a2 t2 = updateLike (deleteLike l k2 a2 t2) k1 a1 t1 p := by
  induction l with
  | nil => rfl
  | cons r l ih =>
    simp only [deleteLike, updateLike] at ih ⊢
    by_cases h1 : likeKey k1 a1 t1 r = true <;> by_cases h2 : likeKey k2 a2 t2 r = true <;>
      simp [List.filter_cons, h1, h2, likeKey_set_is_like, ih]

theorem updateLike_comm {a1 t1 a2 t2 : Int} {k1 k2 : Bool}
    (hne : (a1, t1, k1) ≠ (a2, t2, k2)) (l : List LikeRow) (p q : Bool) :
    updateLike (updateLike l k1 a1 t1 p) k2 a2 t2 q
      = updateLike (updateLike l k2 a2 t2 q) k1 a1 t1 p := by
  simp only [updateLike, List.map_map]
  apply List.map_congr_left
  intro r _
  by_cases h1 : likeKey k1 a1 t1 r = true
  · have h2 := likeKey_disjoint hne h1
    simp [h1, h2, likeKey_set_is_like]
  · by_cases h2 : likeKey k2 a2 t2 r = true
    · simp [h1, h2, likeKey_set_is_like]
    · simp [h1, h2]

theorem updateLike_filter_other {a1 t1 a2 t2 : Int} {k1 k2 : Bool}
    (hne : (a1, t1, k1) ≠ (a2, t2, k2)) (l : List LikeRow) (p : Bool) :
    (updateLike l k1 a1 t1 p).filter (likeKey k2 a2 t2) = l.filter (likeKey k2 a2 t2) := by
  induction l with
  | nil => rfl
  | cons r l ih =>
    simp only [updateLike] at ih ⊢
    by_cases h1 : likeKey k1 a1 t1 r = true
    · have h2 := likeKey_disjoint hne h1
      simp [List.filter_cons, h1, h2, likeKey_set_is_like, ih]
    · by_cases h2 : likeKey k2 a2 t2 r = true
      · simp [List.filter_cons, h1, h2, ih]
      · simp [List.filter_cons, h1, h2, ih]

/-- A committed call on one key leaves the rows of every other key as they are. -/
theorem likeStep_filter_other {a1 t1 a2 t2 : Int} {k1 k2 : Bool}
    (hne : (a1, t1, k1) ≠ (a2, t2, k2)) (l : List LikeRow) (p : Bool) :
    (likeStep l k1 a1 t1 p).filter (likeKey k2 a2 t2) = l.filter (likeKey k2 a2 t2) := by
  unfold likeStep
  split
  · have h := likeKey_disjoint hne (likeKey_newLikeRow k1 a1 t1 p)
    simp [List.filter_append, List.filter_cons, h]
  · split
    · simp only [deleteLike, List.filter_filter]
      apply List.filter_congr
      intro r _
      by_cases h2 : likeKey k2 a2 t2 r = true
      · simp [h2, likeKey_disjoint_symm hne h2]
      · simp [h2]
    · exact updateLike_filter_other hne l p

theorem likeStep_find_other {a1 t1 a2 t2 : Int} {k1 k2 : Bool}
    (hne : (a1, t1, k1) ≠ (a2, t2, k2)) (l : List LikeRow) (p : Bool) :
    (likeStep l k1 a1 t1 p).find? (likeKey k2 a2 t2) = l.find? (likeKey k2 a2 t2) := by
  rw [find?_eq_head?_filter, find?_eq_head?_filter, likeStep_filter_other hne]

theorem likeStep_none {l : List LikeRow} {k : Bool} {u t : Int} (p : Bool)
    (h : l.find? (likeKey k u t) = none) :
    likeStep l k u t p = l ++ [newLikeRow k u t p] := by
  simp [likeStep, h]

theorem likeStep_same {l : List LikeRow} {k : Bool} {u t : Int} {p : Bool} {r : LikeRow}
    (h : l.find? (likeKey k u t) = some r) (hp : r.is_like = p) :
    likeStep l k u t p = deleteLike l k u t := by
  simp [likeStep, h, hp]

theorem likeStep_flip {l : List LikeRow} {k : Bool} {u t : Int} {p : Bool} {r : LikeRow}
    (h : l.find? (likeKey k u t) = some r) (hp : ¬ r.is_like = p) :
    likeStep l k u t p = updateLike l k u t p := by
  simp [likeStep, h, hp]

/-- Two committed calls on distinct keys leave the same rows in either order. -/
theorem likeStep_comm {a1 t1 a2 t2 : Int} {k1 k2 : Bool}
    (hne : (a1, t1, k1) ≠ (a2, t2, k2)) (l : List LikeRow) (p1 p2 : Bool) :
    (likeStep (likeStep l k1 a1 t1 p1) k2 a2 t2 p2).Perm
      (likeStep (likeStep l k2 a2 t2 p2) k1 a1 t1 p1) := by
  have hne2 : (a2, t2, k2) ≠ (a1, t1, k1) := fun e => hne e.symm
  have f12 := likeStep_find_other hne l p1
  have f21 := likeStep_find_other hne2 l p2
  rcases h1 : l.find? (likeKey k1 a1 t1) with _ | r1 <;>
    rcases h2 : l.find? (likeKey k2 a2 t2) with _ | r2
  · rw [likeStep_none p2 (f12.trans h2), likeStep_none p1 (f21.trans h1),
      likeStep_none p1 h1, likeStep_none p2 h2, List.append_assoc, List.append_assoc]
    exact List.Perm.append_left l (List.Perm.swap _ _ [])
  · by_cases q2 : r2.is_like = p2
    · rw [likeStep_same (f12.trans h2) q2, likeStep_none p1 (f21.trans h1),
        likeStep_none p1 h1, likeStep_same h2 q2, deleteLike_append_other hne]
    · rw [likeStep_flip (f12.trans h2) q2, likeStep_none p1 (f21.trans h1),
        likeStep_none p1 h1, likeStep_flip h2 q2, updateLike_append_other hne]
  · by_cases q1 : r1.is_like = p1
    · rw [likeStep_none p2 (f12.trans h2), likeStep_same (f21.trans h1) q1,
        likeStep_same h1 q1, likeStep_none p2 h2, deleteLike_append_other hne2]
    · rw [likeStep_none p2 (f12.trans h2), likeStep_flip (f21.trans h1) q1,
        likeStep_flip h1 q1, likeStep_none p2 h2, updateLike_append_other hne2]
  · by_cases q1 : r1.is_like = p1 <;> by_cases q2 : r2.is_like = p2
    · rw [likeStep_same (f12.trans h2) q2, likeStep_same (f21.trans h1) q1,
        likeStep_same h1 q1, likeStep_same h2 q2, deleteLike_comm]
    · rw [likeStep_flip (f12.trans h2) q2, likeStep_same (f21.trans h1) q1,
        likeStep_same h1 q1, likeStep_flip h2 q2, deleteLike_updateLike_other]
    · rw [likeStep_same (f12.trans h2) q2, likeStep_flip (f21.trans h1) q1,
        likeStep_flip h1 q1, likeStep_same h2 q2, deleteLike_updateLike_other]
    · rw [likeStep_flip (f12.trans h2) q2, likeStep_flip (f21.trans h1) q1,
        likeStep_flip h1 q1, likeStep_flip h2 q2, updateLike_comm hne]

/-- C27: toggles on distinct keys are independent. An `UpsertLike` on the first
key, committed or failed, leaves the rows of the second key (or their absence)
as they are; the two calls leave the same rows, each as often, in either order;
and a toggle on post `n` leaves the rows of every reaction to comment `n` as
they are. -/
theorem UpsertLike_distinct_keys_independent (f1 f2 : Faults) (likes : List LikeRow)
    (a1 t1 a2 t2 : Int) (k1 k2 p1 p2 : Bool) (hne : (a1, t1, k1) ≠ (a2, t2, k2)) :
    (UpsertLike f1 likes a1 t1 p1 k1).2.filter (likeKey k2 a2 t2)
      = likes.filter (likeKey k2 a2 t2) ∧
    (UpsertLike f2 (UpsertLike f1 likes a1 t1 p1 k1).2 a2 t2 p2 k2).2.Perm
      (UpsertLike f1 (UpsertLike f2 likes a2 t2 p2 k2).2 a1 t1 p1 k1).2 ∧
    (∀ (g : Faults) (tbl : List LikeRow) (b n : Int) (q : Bool),
      (UpsertLike g tbl a1 n q true).2.filter (likeKey false b n)
        = tbl.filter (likeKey false b n)) := by
  have hfilter : ∀ (g : Faults) (tbl : List LikeRow) (c1 s1 c2 s2 : Int) (j1 j2 q : Bool),
      (c1, s1, j1) ≠ (c2, s2, j2) →
      (UpsertLike g tbl c1 s1 q j1).2.filter (likeKey j2 c2 s2)
        = tbl.filter (likeKey j2 c2 s2) := by
    intro g tbl c1 s1 c2 s2 j1 j2 q hd
    rw [UpsertLike_eq_likeStep]
    split
    · rfl
    · exact likeStep_filter_other hd tbl q
  refine ⟨hfilter f1 likes a1 t1 a2 t2 k1 k2 p1 hne, ?_, ?_⟩
  · simp only [UpsertLike_eq_likeStep]
    by_cases e1 : (f1 0 || f1 1 || f1 2 || f1 3) = true <;>
      by_cases e2 : (f2 0 || f2 1 || f2 2 || f2 3) = true
    · simp only [e1, e2, if_true]
      exact List.Perm.refl _
    · simp only [e1, e2, if_true, if_false]
      exact List.Perm.refl _
    · simp only [e1, e2, if_true, if_false]
      exact List.Perm.refl _
    · simp only [e1, e2, if_false]
      exact likeStep_comm hne likes p1 p2
  · intro g tbl b n q
    exact hfilter g tbl a1 n b n true false q (by simp)

/-- Witness of C27: actor 3 likes post 9 and actor 4 dislikes comment 9. -/
theorem UpsertLike_distinct_keys_independent_witness :
    List.Perm
      (UpsertLike noFault (UpsertLike noFault [⟨4, none, some 9, true⟩] 3 9 true true).2
        4 9 false false).2
      (UpsertLike noFault (UpsertLike noFault [⟨4, none, some 9, true⟩] 4 9 false false).2
        3 9 true true).2 :=
  (UpsertLike_distinct_keys_independent noFault noFault [⟨4, none, some 9, true⟩]
    3 9 4 9 true false true false (by decide)).2.1

/-! ## The like handlers without a user -/

/-- C29: a POST with a well-formed form and no user makes the like handlers read
`user.ID` of the nil user. Without a session cookie `LikePostHandler` ends in
the nil pointer dereference, and so does `LikeCommentHandler` for a token that
has no session row; no likes row is written. For a Guest session the handler
answers with the page of `Error400Handler`, because `GetUserFromSession` returns
its scan error. -/
theorem like_handlers_dereference_nil_user :
    (∀ likes : List LikeRow,
      LikePostHandler noFault [] [] likes
          ⟨"POST", none, fun k => if k = "post_id" then "9" else "true"⟩
        = (Response.nilDereference, likes)) ∧
    (∀ likes : List LikeRow,
      LikeCommentHandler noFault [⟨some 7, "T", 100, false, 0, 0⟩]
          [⟨7, "ann", "ann@example.org", "hash"⟩] likes
          ⟨"POST", some "gone", fun k => if k = "comment_id" then "9" else "true"⟩
        = (Response.nilDereference, likes)) ∧
    (∀ likes : List LikeRow,
      LikePostHandler noFault [⟨none, "g-1", 100, true, 0, 0⟩] [] likes
          ⟨"POST", some "g-1", fun k => if k = "post_id" then "9" else "true"⟩
        = (Response.error400, likes)) :=
  ⟨fun _ => rfl, fun _ => rfl, fun _ => rfl⟩

end RebootForums
